import Mathlib

/-! The layout compiler of zellijinator.

A shallow embedding of `internal/zellij/layout.go` (with the data model of
`config/config.go`) and theorems about the text it produces.

Conventions of the embedding

* Go strings are modelled by `String`; `fmt.Sprintf` with `%s` and `%d` verbs is
  written out as concatenation (`%d` of a non-negative `int` is `toString` of a `Nat`).
* `*strings.Builder` is passed explicitly as a `Builder` value and returned.
* `map[string]string` is the list of its entries (keys pairwise distinct).  The order in
  which `for k, v := range m` yields the entries is not fixed by Go; it is supplied by
  the `Runtime`, separately for every call of `writePaneCommand`.
* `os.Getenv("SHELL")` is the field `Runtime.SHELL` (`""` when the variable is unset).
* A run-time panic (index out of range, integer division by zero) is the result `none`.
-/

namespace Zellijinator

/-! ## Data model (`config/config.go`) -/

/-- Struct `config.Pane`. -/
structure Pane where
  Focus : Bool
  Commands : List String
  Size : String
  Split : String
deriving DecidableEq, Repr

/-- Struct `config.Tab`. -/
structure Tab where
  Name : String
  Focus : Bool
  Layout : String
  Panes : List Pane
deriving DecidableEq, Repr

/-- Entries of a Go `map[string]string`. -/
abbrev EnvMap := List (String × String)

/-- Struct `config.Project`. -/
structure Project where
  Name : String
  Root : String
  SessionName : String
  Layout : String
  DefaultLayout : String
  Tabs : List Tab
  Env : EnvMap
deriving DecidableEq, Repr

/-! ## Runtime and library functions -/

/-- What the process environment and the Go runtime contribute to one run:
the value of `SHELL`, and for the `n`-th call of `writePaneCommand` the order in which
ranging over the map `m` yields its entries (some permutation of the entries). -/
structure Runtime where
  SHELL : String
  rangeOrder : Nat → EnvMap → List (String × String)
  rangeOrder_perm : ∀ n m, (rangeOrder n m).Perm m

/-- A `strings.Builder` together with the number of `writePaneCommand` calls made so far
(the index into `Runtime.rangeOrder`). -/
structure Builder where
  buf : String
  calls : Nat
deriving DecidableEq, Repr

/-- Method `(*strings.Builder).WriteString`. -/
def Builder.WriteString (b : Builder) (s : String) : Builder :=
  { b with buf := b.buf ++ s }

/-- Library function `strings.Join`. -/
def Join : List String → String → String
  | [], _ => ""
  | [a], _ => a
  | a :: b :: rest, sep => a ++ sep ++ Join (b :: rest) sep

/-- Left-to-right scan of `strings.ReplaceAll` for a non-empty `old`: `skip` counts the
characters of a match that are still to be dropped. -/
def ReplaceAll.scan (old new : List Char) : Nat → List Char → List Char
  | _, [] => []
  | skip + 1, _ :: cs => ReplaceAll.scan old new skip cs
  | 0, c :: cs =>
    if old.isPrefixOf (c :: cs) then new ++ ReplaceAll.scan old new (old.length - 1) cs
    else c :: ReplaceAll.scan old new 0 cs

/-- Library function `strings.ReplaceAll`: every non-overlapping occurrence of `old` in `s`
is replaced by `new` (an empty `old` matches before every character and at the end). -/
def ReplaceAll (s old new : String) : String :=
  if old = "" then ⟨new.data ++ s.data.flatMap (fun c => c :: new.data)⟩
  else ⟨ReplaceAll.scan old.data new.data 0 s.data⟩

/-- Integer division of Go: panics when the divisor is zero. -/
def goDiv (a b : Nat) : Option Nat :=
  if b = 0 then none else some (a / b)

/-- Loop `for i, x := range xs`, started at index `i`. -/
def forEach {α : Type} (body : Nat → α → Builder → Option Builder) :
    Nat → List α → Builder → Option Builder
  | _, [], st => some st
  | i, x :: xs, st => (body i x st).bind (forEach body (i + 1) xs)

/-- Loop `for i := lo; i < hi; i++`. -/
def forRange (lo hi : Nat) (body : Nat → Builder → Option Builder) (st : Builder) :
    Option Builder :=
  (List.range' lo (hi - lo)).foldlM (fun st i => body i st) st

/-! ## `internal/zellij/layout.go` -/

/-- Function `writePaneCommand`. -/
def writePaneCommand (rt : Runtime) (layout : Builder) (pane : Pane) (rootDir : String)
    (envVars : EnvMap) (indent : String) : Builder :=
  let userShell := rt.SHELL
  let userShell := if userShell = "" then "/bin/bash" else userShell
  let layout' : Builder := { layout with calls := layout.calls + 1 }
  if pane.Commands.length > 0 then
    let envStr :=
      if envVars.length > 0 then
        let envPairs := (rt.rangeOrder layout.calls envVars).map
          (fun kv => "export " ++ kv.1 ++ "='" ++ kv.2 ++ "'")
        Join envPairs "; " ++ "; "
      else ""
    let commandStr := Join pane.Commands " && "
    let fullCommand := envStr ++ "cd '" ++ rootDir ++ "' && " ++ commandStr ++ "; exec " ++ userShell
    let fullCommand := ReplaceAll fullCommand "\"" "\\\""
    let layout' := layout'.WriteString (indent ++ "command \"sh\"\n")
    layout'.WriteString (indent ++ "args \"-c\" \"" ++ fullCommand ++ "\"\n")
  else
    let fullCommand := "cd '" ++ rootDir ++ "'; exec " ++ userShell
    let layout' := layout'.WriteString (indent ++ "command \"sh\"\n")
    layout'.WriteString (indent ++ "args \"-c\" \"" ++ fullCommand ++ "\"\n")

/-- Function `writePaneWithCommand`. -/
def writePaneWithCommand (rt : Runtime) (layout : Builder) (pane : Pane) (rootDir : String)
    (envVars : EnvMap) (indent : String) : Builder :=
  let layout := layout.WriteString (indent ++ "pane")
  let layout := if pane.Focus then layout.WriteString " focus=true" else layout
  let layout := layout.WriteString " \x7b\n"
  let layout := writePaneCommand rt layout pane rootDir envVars (indent ++ "    ")
  layout.WriteString (indent ++ "\x7d\n")

/-- Function `writeSplitPane`. -/
def writeSplitPane (rt : Runtime) (layout : Builder) (pane : Pane) (splitDir : String)
    (size : String) (rootDir : String) (envVars : EnvMap) (indent : String) : Builder :=
  let layout := layout.WriteString (indent ++ "pane split_direction=\"" ++ splitDir ++ "\"")
  let layout := if size ≠ "" then layout.WriteString (" size=\"" ++ size ++ "\"") else layout
  let layout := layout.WriteString " \x7b\n"
  let layout := layout.WriteString (indent ++ "    pane")
  let layout := if pane.Focus then layout.WriteString " focus=true" else layout
  let layout := layout.WriteString " \x7b\n"
  let layout := writePaneCommand rt layout pane rootDir envVars (indent ++ "        ")
  let layout := layout.WriteString (indent ++ "    \x7d\n")
  layout.WriteString (indent ++ "\x7d\n")

/-- Function `generatePanes` (manual mode). -/
def generatePanes (rt : Runtime) (layout : Builder) (panes : List Pane) (rootDir : String)
    (envVars : EnvMap) (indent : String) : Option Builder :=
  if panes.length = 0 then some layout
  else if panes.length > 1 then do
    let pane0 ← panes[0]?
    let layout := writePaneWithCommand rt layout pane0 rootDir envVars indent
    forRange 1 panes.length (fun i layout => do
      let pane ← panes[i]?
      let layout :=
        if pane.Split = "horizontal" then
          layout.WriteString (indent ++ "pane split_direction=\"horizontal\"")
        else if pane.Split = "vertical" then
          layout.WriteString (indent ++ "pane split_direction=\"vertical\"")
        else
          layout.WriteString (indent ++ "pane split_direction=\"horizontal\"")
      let layout :=
        if pane.Size ≠ "" then layout.WriteString (" size=\"" ++ pane.Size ++ "%\"") else layout
      let layout := layout.WriteString " \x7b\n"
      let layout := layout.WriteString (indent ++ "    pane")
      let layout := if pane.Focus then layout.WriteString " focus=true" else layout
      let layout := layout.WriteString " \x7b\n"
      let layout := writePaneCommand rt layout pane rootDir envVars (indent ++ "        ")
      let layout := layout.WriteString (indent ++ "    \x7d\n")
      some (layout.WriteString (indent ++ "\x7d\n"))) layout
  else do
    let pane0 ← panes[0]?
    some (writePaneWithCommand rt layout pane0 rootDir envVars indent)

/-- Function `generatePanesWithLayout`, with a bound `fuel` on the depth of its
self-calls.  The only self-calls are made by the case `tiled`, with the literal pattern names
`even-vertical` and `even-horizontal`, whose cases make none: depth 2 is never exceeded. -/
def generatePanesWithLayoutFuel : Nat → Runtime → Builder → String → List Pane → String →
    EnvMap → String → Option Builder
  | 0, _, _, _, _, _, _, _ => none
  | fuel + 1, rt, layout, layoutType, panes, rootDir, envVars, indent =>
    let numPanes := panes.length
    if numPanes = 0 then some layout
    else if layoutType = "even-horizontal" then do
      let size ← goDiv 100 numPanes
      forEach (fun i pane layout =>
        if i = 0 then
          some (writePaneWithCommand rt layout pane rootDir envVars indent)
        else
          some (writeSplitPane rt layout pane "horizontal" (toString size ++ "%")
            rootDir envVars indent)) 0 panes layout
    else if layoutType = "even-vertical" then do
      let size ← goDiv 100 numPanes
      forEach (fun i pane layout =>
        if i = 0 then
          some (writePaneWithCommand rt layout pane rootDir envVars indent)
        else
          some (writeSplitPane rt layout pane "vertical" (toString size ++ "%")
            rootDir envVars indent)) 0 panes layout
    else if layoutType = "main-vertical" then
      if numPanes = 1 then do
        let pane0 ← panes[0]?
        some (writePaneWithCommand rt layout pane0 rootDir envVars indent)
      else do
        let pane0 ← panes[0]?
        let layout := writePaneWithCommand rt layout pane0 rootDir envVars indent
        let layout := layout.WriteString
          (indent ++ "pane split_direction=\"vertical\" size=\"30%\" \x7b\n")
        let pane ← panes[1]?
        let layout := layout.WriteString (indent ++ "    pane")
        let layout := if pane.Focus then layout.WriteString " focus=true" else layout
        let layout := layout.WriteString " \x7b\n"
        let layout := writePaneCommand rt layout pane rootDir envVars (indent ++ "        ")
        let layout := layout.WriteString (indent ++ "    \x7d\n")
        let layout ←
          if numPanes > 2 then do
            let remainingSize ← goDiv 100 (numPanes - 1)
            forRange 2 numPanes (fun i layout => do
              let pane ← panes[i]?
              some (writeSplitPane rt layout pane "horizontal" (toString remainingSize ++ "%")
                rootDir envVars (indent ++ "    "))) layout
          else some layout
        some (layout.WriteString (indent ++ "\x7d\n"))
    else if layoutType = "main-horizontal" then
      if numPanes = 1 then do
        let pane0 ← panes[0]?
        some (writePaneWithCommand rt layout pane0 rootDir envVars indent)
      else do
        let pane0 ← panes[0]?
        let layout := writePaneWithCommand rt layout pane0 rootDir envVars indent
        let layout := layout.WriteString
          (indent ++ "pane split_direction=\"horizontal\" size=\"30%\" \x7b\n")
        let pane ← panes[1]?
        let layout := layout.WriteString (indent ++ "    pane")
        let layout := if pane.Focus then layout.WriteString " focus=true" else layout
        let layout := layout.WriteString " \x7b\n"
        let layout := writePaneCommand rt layout pane rootDir envVars (indent ++ "        ")
        let layout := layout.WriteString (indent ++ "    \x7d\n")
        let layout ←
          if numPanes > 2 then do
            let remainingSize ← goDiv 100 (numPanes - 1)
            forRange 2 numPanes (fun i layout => do
              let pane ← panes[i]?
              some (writeSplitPane rt layout pane "vertical" (toString remainingSize ++ "%")
                rootDir envVars (indent ++ "    "))) layout
          else some layout
        some (layout.WriteString (indent ++ "\x7d\n"))
    else if layoutType = "tiled" then
      if numPanes ≤ 2 then
        generatePanesWithLayoutFuel fuel rt layout "even-vertical" panes rootDir envVars indent
      else if numPanes = 3 then do
        let pane0 ← panes[0]?
        let layout := writePaneWithCommand rt layout pane0 rootDir envVars indent
        let layout := layout.WriteString
          (indent ++ "pane split_direction=\"vertical\" size=\"50%\" \x7b\n")
        let layout := layout.WriteString (indent ++ "    pane")
        let pane1 ← panes[1]?
        let layout := if pane1.Focus then layout.WriteString " focus=true" else layout
        let layout := layout.WriteString " \x7b\n"
        let layout := writePaneCommand rt layout pane1 rootDir envVars (indent ++ "        ")
        let layout := layout.WriteString (indent ++ "    \x7d\n")
        let pane2 ← panes[2]?
        let layout := writeSplitPane rt layout pane2 "horizontal" "50%" rootDir envVars
          (indent ++ "    ")
        some (layout.WriteString (indent ++ "\x7d\n"))
      else if numPanes = 4 then do
        let pane0 ← panes[0]?
        let layout := writePaneWithCommand rt layout pane0 rootDir envVars indent
        let pane1 ← panes[1]?
        let layout := writeSplitPane rt layout pane1 "vertical" "50%" rootDir envVars indent
        let layout := layout.WriteString
          (indent ++ "pane split_direction=\"horizontal\" size=\"50%\" \x7b\n")
        let layout := layout.WriteString (indent ++ "    pane")
        let pane2 ← panes[2]?
        let layout := if pane2.Focus then layout.WriteString " focus=true" else layout
        let layout := layout.WriteString " \x7b\n"
        let layout := writePaneCommand rt layout pane2 rootDir envVars (indent ++ "        ")
        let layout := layout.WriteString (indent ++ "    \x7d\n")
        let pane3 ← panes[3]?
        let layout := writeSplitPane rt layout pane3 "vertical" "50%" rootDir envVars
          (indent ++ "    ")
        some (layout.WriteString (indent ++ "\x7d\n"))
      else
        generatePanesWithLayoutFuel fuel rt layout "even-horizontal" panes rootDir envVars indent
    else
      generatePanes rt layout panes rootDir envVars indent

/-- Function `generatePanesWithLayout`. -/
def generatePanesWithLayout (rt : Runtime) (layout : Builder) (layoutType : String)
    (panes : List Pane) (rootDir : String) (envVars : EnvMap) (indent : String) :
    Option Builder :=
  generatePanesWithLayoutFuel 2 rt layout layoutType panes rootDir envVars indent

/-- Loop `for i, tab := range project.Tabs` of `GenerateLayout` that finds the focused tab,
started at index `i`: the index of the first tab with `Focus`, and `0` (the initial value of
`focusedTabIndex`) when the loop ends without a `break`. -/
def focusedTabIndexFrom : Nat → List Tab → Nat
  | _, [] => 0
  | i, tab :: rest => if tab.Focus then i else focusedTabIndexFrom (i + 1) rest

/-- Function `GenerateLayout`. -/
def GenerateLayout (rt : Runtime) (project : Project) : Option String := do
  let layout : Builder := ⟨"", 0⟩
  let sessionName := project.SessionName
  let sessionName := if sessionName = "" then project.Name else sessionName
  let layout := layout.WriteString ("session_name \"" ++ sessionName ++ "\"\n\n")
  let layout :=
    if project.DefaultLayout ≠ "" then
      let layout := layout.WriteString "layout \x7b\n"
      let layout := layout.WriteString
        ("    // Extending from " ++ project.DefaultLayout ++ " layout\n")
      if project.DefaultLayout = "compact" then
        let layout := layout.WriteString "    default_tab_template \x7b\n"
        let layout := layout.WriteString "        children\n"
        let layout := layout.WriteString "        pane size=1 borderless=true \x7b\n"
        let layout := layout.WriteString "            plugin location=\"zellij:compact-bar\"\n"
        let layout := layout.WriteString "        \x7d\n"
        layout.WriteString "    \x7d\n\n"
      else layout
    else
      let layout := layout.WriteString "layout \x7b\n"
      let layout := layout.WriteString "    default_tab_template \x7b\n"
      let layout := layout.WriteString "        pane size=1 borderless=true \x7b\n"
      let layout := layout.WriteString "            plugin location=\"zellij:tab-bar\"\n"
      let layout := layout.WriteString "        \x7d\n"
      let layout := layout.WriteString "        children\n"
      let layout := layout.WriteString "        pane size=2 borderless=true \x7b\n"
      let layout := layout.WriteString "            plugin location=\"zellij:status-bar\"\n"
      let layout := layout.WriteString "        \x7d\n"
      layout.WriteString "    \x7d\n\n"
  let focusedTabIndex := focusedTabIndexFrom 0 project.Tabs
  let layout ← forEach (fun tabIndex tab layout => do
      let isFocusedTab := tabIndex = focusedTabIndex
      let layout := layout.WriteString ("    tab name=\"" ++ tab.Name ++ "\"")
      let layout := layout.WriteString (" cwd=\"" ++ project.Root ++ "\"")
      let layout := if isFocusedTab then layout.WriteString " focus=true" else layout
      let layout := layout.WriteString " \x7b\n"
      let layout ←
        if tab.Layout ≠ "" then
          generatePanesWithLayout rt layout tab.Layout tab.Panes project.Root project.Env
            "        "
        else
          generatePanes rt layout tab.Panes project.Root project.Env "        "
      some (layout.WriteString "    \x7d\n")) 0 project.Tabs layout
  let layout := layout.WriteString "\x7d\n"
  some layout.buf

/-! ## Layout trees

The split tree that a piece of layout text denotes, and its serialisation.  Used to state
what the emitted text is. -/

/-- A node of the layout tree: a leaf pane (the pane it was declared by and the number of the
`writePaneCommand` call that wrote its command block), or a split container. -/
inductive Node where
  | leaf (pane : Pane) (call : Nat)
  | split (direction : String) (size : Option String) (children : List Node)

mutual
/-- KDL text of a node at indentation `indent`. -/
def Node.render (rt : Runtime) (rootDir : String) (envVars : EnvMap) (indent : String) :
    Node → String
  | .leaf pane call =>
    indent ++ "pane" ++ (if pane.Focus then " focus=true" else "") ++ " \x7b\n"
      ++ (writePaneCommand rt ⟨"", call⟩ pane rootDir envVars (indent ++ "    ")).buf
      ++ indent ++ "\x7d\n"
  | .split direction size children =>
    indent ++ "pane split_direction=\"" ++ direction ++ "\""
      ++ (match size with
          | none => ""
          | some s => " size=\"" ++ s ++ "\"")
      ++ " \x7b\n" ++ Node.renderAll rt rootDir envVars (indent ++ "    ") children
      ++ indent ++ "\x7d\n"
/-- KDL text of a sequence of sibling nodes. -/
def Node.renderAll (rt : Runtime) (rootDir : String) (envVars : EnvMap) (indent : String) :
    List Node → String
  | [] => ""
  | n :: ns =>
    Node.render rt rootDir envVars indent n ++ Node.renderAll rt rootDir envVars indent ns
end

/-- Concatenation of a list of texts, in order. -/
def concatText : List String → String
  | [] => ""
  | s :: ss => s ++ concatText ss

/-- Container that manual mode puts around a pane after the first: orientation `vertical`
when the pane asks for it and `horizontal` otherwise, the pane's size as a percentage when it
has one, and the pane's leaf as only child. -/
def manualContainer (pane : Pane) (call : Nat) : Node :=
  .split (if pane.Split = "vertical" then "vertical" else "horizontal")
    (if pane.Size = "" then none else some (pane.Size ++ "%")) [.leaf pane call]

/-- Chain topology: the first pane as a plain leaf, then every other pane, in declaration
order, in a container made by `wrap`; `call` numbers the leaves consecutively. -/
def chainNodes (wrap : Pane → Nat → Node) (call : Nat) : List Pane → List Node
  | [] => []
  | pane0 :: rest =>
    .leaf pane0 call :: (rest.enumFrom (call + 1)).map (fun ip => wrap ip.2 ip.1)

/-- Container of the patterns `even-horizontal` and `even-vertical` for a tab of `n` panes:
the stated orientation, size `100 / n` percent (integer division), one leaf. -/
def evenContainer (direction : String) (n : Nat) (pane : Pane) (call : Nat) : Node :=
  .split direction (some (toString (100 / n) ++ "%")) [.leaf pane call]

/-- Topology of `main-vertical` (`outer = "vertical"`, `inner = "horizontal"`) and of
`main-horizontal` (orientations swapped): the anchor leaf, then for two or more panes one
`outer` container of size 30% that holds the second pane as a leaf followed by one `inner`
container of size `100 / (N - 1)` percent for each further pane. -/
def mainNodes (outer inner : String) (call : Nat) : List Pane → List Node
  | [] => []
  | [pane0] => [.leaf pane0 call]
  | pane0 :: pane1 :: rest =>
    [.leaf pane0 call,
     .split outer (some "30%")
       (.leaf pane1 (call + 1) ::
         (rest.enumFrom (call + 2)).map
           (fun ip => evenContainer inner (rest.length + 1) ip.2 ip.1))]

/-- Topology of `tiled`: three panes are a left anchor and a 50% vertical container with the
second pane on top of the third, split horizontally at 50%; four panes are a 2×2 grid; up to
two panes are laid out as `even-vertical`, more than four as `even-horizontal`. -/
def tiledNodes (call : Nat) : List Pane → List Node
  | [pane0, pane1, pane2] =>
    [.leaf pane0 call,
     .split "vertical" (some "50%")
       [.leaf pane1 (call + 1), .split "horizontal" (some "50%") [.leaf pane2 (call + 2)]]]
  | [pane0, pane1, pane2, pane3] =>
    [.leaf pane0 call,
     .split "vertical" (some "50%") [.leaf pane1 (call + 1)],
     .split "horizontal" (some "50%")
       [.leaf pane2 (call + 2), .split "vertical" (some "50%") [.leaf pane3 (call + 3)]]]
  | panes =>
    if panes.length ≤ 2 then chainNodes (evenContainer "vertical" panes.length) call panes
    else chainNodes (evenContainer "horizontal" panes.length) call panes

/-- Layout tree prescribed for a tab body: by the pattern name for the five recognised
patterns, and the manual-mode chain for every other name. -/
def patternNodes (layoutType : String) (call : Nat) (panes : List Pane) : List Node :=
  if layoutType = "even-horizontal" then
    chainNodes (evenContainer "horizontal" panes.length) call panes
  else if layoutType = "even-vertical" then
    chainNodes (evenContainer "vertical" panes.length) call panes
  else if layoutType = "main-vertical" then mainNodes "vertical" "horizontal" call panes
  else if layoutType = "main-horizontal" then mainNodes "horizontal" "vertical" call panes
  else if layoutType = "tiled" then tiledNodes call panes
  else chainNodes manualContainer call panes

/-! ## Concrete runtimes -/

/-- Runtime with shell variable `shell` in which every map iteration yields the entries in
the listed order. -/
def Runtime.inOrder (shell : String) : Runtime :=
  ⟨shell, fun _ m => m, fun _ _ => List.Perm.refl _⟩

/-- Runtime with shell variable `shell` in which every map iteration yields the entries in
the reverse of the listed order. -/
def Runtime.reversed (shell : String) : Runtime :=
  ⟨shell, fun _ m => m.reverse, fun _ m => List.reverse_perm m⟩

/-- Every `"` of the text is directly preceded by a backslash; `afterBackslash` tells whether
the character before the text is one. -/
def quotesEscaped (afterBackslash : Bool) : List Char → Bool
  | [] => true
  | c :: cs => (c != '"' || afterBackslash) && quotesEscaped (c == '\\') cs

/-! ## The whole layout -/

/-- First line of the layout and the blank line after it: the session name, which is the
project name when the project has no session name. -/
def sessionLine (project : Project) : String :=
  "session_name \"" ++ (if project.SessionName = "" then project.Name else project.SessionName)
    ++ "\"\n\n"

/-- Scaffold that opens the `layout` block, by base template name: the standard tab template
(tab bar, children, status bar) for no name, the compact tab template (children, compact bar)
for `compact`, and for any other name only a comment naming the template. -/
def scaffoldText (defaultLayout : String) : String :=
  if defaultLayout = "" then
    "layout \x7b\n    default_tab_template \x7b\n        pane size=1 borderless=true \x7b\n            plugin location=\"zellij:tab-bar\"\n        \x7d\n        children\n        pane size=2 borderless=true \x7b\n            plugin location=\"zellij:status-bar\"\n        \x7d\n    \x7d\n\n"
  else if defaultLayout = "compact" then
    "layout \x7b\n    // Extending from compact layout\n    default_tab_template \x7b\n        children\n        pane size=1 borderless=true \x7b\n            plugin location=\"zellij:compact-bar\"\n        \x7d\n    \x7d\n\n"
  else
    "layout \x7b\n    // Extending from " ++ defaultLayout ++ " layout\n"

/-- Bodies of the tabs, in order: each is the serialisation, at tab-body indentation, of the
tree prescribed for the tab; `call` numbers the leaves consecutively through all tabs. -/
def tabBodies (rt : Runtime) (rootDir : String) (envVars : EnvMap) : Nat → List Tab → List String
  | _, [] => []
  | call, tab :: rest =>
    Node.renderAll rt rootDir envVars "        " (patternNodes tab.Layout call tab.Panes)
      :: tabBodies rt rootDir envVars (call + tab.Panes.length) rest

mutual
/-- Leaf panes of a node in the order in which they are serialised, each with the number of
the `writePaneCommand` call that writes it. -/
def Node.leaves : Node → List (Nat × Pane)
  | .leaf pane call => [(call, pane)]
  | .split _ _ children => Node.leavesAll children
/-- Leaf panes of a sequence of sibling nodes, in order. -/
def Node.leavesAll : List Node → List (Nat × Pane)
  | [] => []
  | n :: ns => Node.leaves n ++ Node.leavesAll ns
end

/-- The other orientation: `horizontal` for `vertical` and `vertical` for `horizontal`. -/
def swapOrientation (direction : String) : String :=
  if direction = "vertical" then "horizontal"
  else if direction = "horizontal" then "vertical"
  else direction

mutual
/-- The same tree with the orientation of every container swapped; sizes, leaves and nesting
are kept. -/
def Node.swapDirection : Node → Node
  | .leaf pane call => .leaf pane call
  | .split direction size children =>
    .split (swapOrientation direction) size (Node.swapDirectionAll children)
/-- Orientation swap of every node of a sequence. -/
def Node.swapDirectionAll : List Node → List Node
  | [] => []
  | n :: ns => Node.swapDirection n :: Node.swapDirectionAll ns
end

mutual
/-- For every leaf of a node, in serialisation order, the number of split containers around
it, given that the node itself lies inside `depth` containers. -/
def Node.leafDepths (depth : Nat) : Node → List Nat
  | .leaf _ _ => [depth]
  | .split _ _ children => Node.leafDepthsAll (depth + 1) children
/-- Container depths of the leaves of a sequence of sibling nodes. -/
def Node.leafDepthsAll (depth : Nat) : List Node → List Nat
  | [] => []
  | n :: ns => Node.leafDepths depth n ++ Node.leafDepthsAll depth ns
end

/-- The five recognised pattern names. -/
def recognisedPatterns : List String :=
  ["even-horizontal", "even-vertical", "main-vertical", "main-horizontal", "tiled"]

/-- The tab with its pattern field omitted when the pattern is not a recognised one. -/
def Tab.omitUnrecognised (tab : Tab) : Tab :=
  if tab.Layout ∈ recognisedPatterns then tab else { tab with Layout := "" }

/-- Text of the tab blocks of a layout, in order: header line with name, working directory
and focus marker (on the tab found by the first-match scan), body, closing brace. -/
def tabBlocks (rt : Runtime) (rootDir : String) (envVars : EnvMap) (tabs : List Tab) : String :=
  concatText (List.zipWith
    (fun (it : Nat × Tab) (body : String) =>
      "    tab name=\"" ++ it.2.Name ++ "\" cwd=\"" ++ rootDir ++ "\""
        ++ (if it.1 = focusedTabIndexFrom 0 tabs then " focus=true" else "")
        ++ " \x7b\n" ++ body ++ "    \x7d\n")
    tabs.enum (tabBodies rt rootDir envVars 0 tabs))

/-- The pane without its `split` and `size` fields. -/
def Pane.withoutGeometry (pane : Pane) : Pane :=
  { pane with Size := "", Split := "" }

mutual
/-- The same tree with `f` applied to the pane of every leaf. -/
def Node.mapPanes (f : Pane → Pane) : Node → Node
  | .leaf pane call => .leaf (f pane) call
  | .split direction size children => .split direction size (Node.mapPanesAll f children)
/-- Application of `f` to the pane of every leaf of a sequence of nodes. -/
def Node.mapPanesAll (f : Pane → Pane) : List Node → List Node
  | [] => []
  | n :: ns => Node.mapPanes f n :: Node.mapPanesAll f ns
end

/-! ## Syntactic well-formedness of a layout text -/

/-- Place of the scan of a layout text: in the text of the nodes (`afterSlash` tells whether
the previous character is a slash that may open a comment), inside a double-quoted value
(`escaped` tells whether the previous character is an escaping backslash), in a `//` comment,
which runs to the end of the line, or in a `/* */` comment (`level` is the number of
comments around the innermost one, as block comments nest; `last` is the previous character
of the comment, a blank right after a comment delimiter). -/
inductive LexMode where
  | code (afterSlash : Bool)
  | value (escaped : Bool)
  | lineComment
  | blockComment (level : Nat) (last : Char)
deriving DecidableEq, Repr

/-- State of the scan of a layout text: number of blocks that are open, and place of the
scan. -/
structure LexState where
  depth : Nat
  mode : LexMode
deriving DecidableEq, Repr

/-- The characters that end a line in KDL: line feed, carriage return, form feed, next line,
line separator and paragraph separator. -/
def isLineBreak (c : Char) : Bool :=
  c == '\n' || c == '\r' || c == '\x0c' || c == '\u0085' || c == '\u2028' || c == '\u2029'

/-- One character of the scan.  Inside a quoted value a backslash escapes the next character
and an unescaped `"` closes the value.  A `//` comment ends at the end of the line; a block
comment ends at the `*/` that matches its `/*`.  Braces and double quotes inside a value or
a comment count for nothing.  In the text of the nodes `//` and `/*` open a comment, `"`
opens a value, a brace opens a block and a closing brace closes one, which fails when no
block is open. -/
def lexStep (s : LexState) (c : Char) : Option LexState :=
  match s.mode with
  | .value escaped =>
    if escaped then some ⟨s.depth, .value false⟩
    else if c = '\\' then some ⟨s.depth, .value true⟩
    else if c = '"' then some ⟨s.depth, .code false⟩
    else some ⟨s.depth, .value false⟩
  | .lineComment =>
    if isLineBreak c then some ⟨s.depth, .code false⟩ else some ⟨s.depth, .lineComment⟩
  | .blockComment level last =>
    if last = '*' ∧ c = '/' then
      (match level with
        | 0 => some ⟨s.depth, .code false⟩
        | n + 1 => some ⟨s.depth, .blockComment n ' '⟩)
    else if last = '/' ∧ c = '*' then some ⟨s.depth, .blockComment (level + 1) ' '⟩
    else some ⟨s.depth, .blockComment level c⟩
  | .code afterSlash =>
    if afterSlash = true ∧ c = '/' then some ⟨s.depth, .lineComment⟩
    else if afterSlash = true ∧ c = '*' then some ⟨s.depth, .blockComment 0 ' '⟩
    else if c = '"' then some ⟨s.depth, .value false⟩
    else if c = '\x7b' then some ⟨s.depth + 1, .code false⟩
    else if c = '\x7d' then (if s.depth = 0 then none else some ⟨s.depth - 1, .code false⟩)
    else some ⟨s.depth, .code (c == '/')⟩

/-- Scan of a text from a state. -/
def lex : LexState → List Char → Option LexState
  | s, [] => some s
  | s, c :: cs => (lexStep s c).bind (fun s' => lex s' cs)

/-- The text is well formed: every block that is opened is closed by a matching brace, no
brace closes a block that is not open, and every double-quoted value and every block comment
is closed, so that the text ends outside any block, value and block comment. -/
def wellFormed (text : String) : Bool :=
  match lex ⟨0, .code false⟩ text.data with
  | some ⟨0, .code _⟩ => true
  | some ⟨0, .lineComment⟩ => true
  | _ => false

/-- The text contains neither a double quote nor a backslash. -/
def noQuoteNoBackslash (s : String) : Prop :=
  ∀ c ∈ s.data, c ≠ '"' ∧ c ≠ '\\'

/-- The text contains no backslash. -/
def noBackslash (s : String) : Prop :=
  ∀ c ∈ s.data, c ≠ '\\'

/-- The text contains no line break. -/
def noLineBreak (s : String) : Prop :=
  ∀ c ∈ s.data, isLineBreak c = false

/-- Scanning `t` from the place `m` with `a` or more blocks open succeeds and ends at the
place `n`, with `b` blocks open in place of the `a`. -/
def Step (t : String) (m : LexMode) (a : Nat) (n : LexMode) (b : Nat) : Prop :=
  ∀ d : Nat, lex ⟨d + a, m⟩ t.data = some ⟨d + b, n⟩

mutual
/-- Every container of the tree has an orientation and a size without double quote and
backslash, and every leaf satisfies `leafOk`. -/
def Node.Safe (leafOk : Pane → Nat → Prop) : Node → Prop
  | .leaf pane call => leafOk pane call
  | .split direction size children =>
    noQuoteNoBackslash direction ∧ (∀ s, size = some s → noQuoteNoBackslash s) ∧
      Node.SafeAll leafOk children
/-- All nodes of the sequence are safe. -/
def Node.SafeAll (leafOk : Pane → Nat → Prop) : List Node → Prop
  | [] => True
  | n :: ns => Node.Safe leafOk n ∧ Node.SafeAll leafOk ns
end

instance (s : String) : Decidable (noQuoteNoBackslash s) := by
  unfold noQuoteNoBackslash; infer_instance

instance (s : String) : Decidable (noBackslash s) := by
  unfold noBackslash; infer_instance

instance (s : String) : Decidable (noLineBreak s) := by
  unfold noLineBreak; infer_instance

/-! ## The text of a tab body, piece by piece -/

/-- Argument of `sh -c` prescribed for a pane: for a pane without commands the directory
change and the `exec` of the shell; for a pane with commands the exports (one per environment
entry, in the order in which the runtime yields the entries in call `call`), the directory
change, the commands joined by ` && ` and the `exec` of the shell, with every double quote
replaced by backslash and double quote.  The shell is `SHELL`, or `/bin/bash` when that is
empty. -/
def paneArgument (rt : Runtime) (call : Nat) (pane : Pane) (rootDir : String)
    (envVars : EnvMap) : String :=
  if pane.Commands = [] then
    "cd '" ++ rootDir ++ "'; exec " ++ (if rt.SHELL = "" then "/bin/bash" else rt.SHELL)
  else
    ⟨((if envVars = [] then ""
        else "; ".intercalate ((rt.rangeOrder call envVars).map
          (fun kv => "export " ++ kv.1 ++ "='" ++ kv.2 ++ "'")) ++ "; ")
      ++ "cd '" ++ rootDir ++ "' && " ++ " && ".intercalate pane.Commands ++ "; exec "
      ++ (if rt.SHELL = "" then "/bin/bash" else rt.SHELL)).data.flatMap
        (fun c => if c = '"' then ['\\', '"'] else [c])⟩

/-- A piece of the text of a tab body: the line that opens a leaf pane, the line that opens a
split container, a line that closes a pane or container, or the command block of a pane (the
lines `command "sh"` and `args "-c" "..."`), written in the call `call`. -/
inductive Piece where
  | leafOpen (indent : String) (focus : Bool)
  | containerOpen (indent direction : String) (size : Option String)
  | close (indent : String)
  | commandBlock (indent : String) (call : Nat) (pane : Pane)

/-- Text of a piece. -/
def Piece.text (rt : Runtime) (rootDir : String) (envVars : EnvMap) : Piece → String
  | .leafOpen indent focus =>
    indent ++ "pane" ++ (if focus then " focus=true" else "") ++ " \x7b\n"
  | .containerOpen indent direction size =>
    indent ++ "pane split_direction=\"" ++ direction ++ "\""
      ++ (match size with
          | none => ""
          | some s => " size=\"" ++ s ++ "\"")
      ++ " \x7b\n"
  | .close indent => indent ++ "\x7d\n"
  | .commandBlock indent call pane =>
    indent ++ "command \"sh\"\n" ++ indent ++ "args \"-c\" \""
      ++ paneArgument rt call pane rootDir envVars ++ "\"\n"

/-- The pane and call of a command block; `none` for the other pieces. -/
def Piece.block : Piece → Option (Nat × Pane)
  | .commandBlock _ call pane => some (call, pane)
  | _ => none

mutual
/-- Pieces of the text of a node at indentation `indent`, in order. -/
def Node.pieces (indent : String) : Node → List Piece
  | .leaf pane call =>
    [.leafOpen indent pane.Focus, .commandBlock (indent ++ "    ") call pane, .close indent]
  | .split direction size children =>
    .containerOpen indent direction size
      :: (Node.piecesAll (indent ++ "    ") children ++ [.close indent])
/-- Pieces of the text of a sequence of sibling nodes. -/
def Node.piecesAll (indent : String) : List Node → List Piece
  | [] => []
  | n :: ns => Node.pieces indent n ++ Node.piecesAll indent ns
end

/-! ## Basic facts -/

theorem writePaneCommand_eq (rt : Runtime) (st : Builder) (pane : Pane) (rootDir : String)
    (envVars : EnvMap) (indent : String) :
    writePaneCommand rt st pane rootDir envVars indent
      = ⟨st.buf ++ (writePaneCommand rt ⟨"", st.calls⟩ pane rootDir envVars indent).buf,
          st.calls + 1⟩ := by
  simp only [writePaneCommand, Builder.WriteString]
  split <;> simp [String.append_assoc]

theorem writePaneWithCommand_eq (rt : Runtime) (st : Builder) (pane : Pane) (rootDir : String)
    (envVars : EnvMap) (indent : String) :
    writePaneWithCommand rt st pane rootDir envVars indent
      = ⟨st.buf ++ (Node.leaf pane st.calls).render rt rootDir envVars indent, st.calls + 1⟩ := by
  simp only [writePaneWithCommand, Node.render]
  rw [writePaneCommand_eq]
  cases pane.Focus <;> simp [Builder.WriteString, String.append_assoc]

theorem indent_twice (indent : String) :
    indent ++ "    " ++ "    " = indent ++ "        " := by
  simp [String.append_assoc]

theorem writeSplitPane_eq (rt : Runtime) (st : Builder) (pane : Pane) (splitDir size : String)
    (rootDir : String) (envVars : EnvMap) (indent : String) (hsize : size ≠ "") :
    writeSplitPane rt st pane splitDir size rootDir envVars indent
      = ⟨st.buf ++ (Node.split splitDir (some size) [.leaf pane st.calls]).render
            rt rootDir envVars indent, st.calls + 1⟩ := by
  simp only [writeSplitPane, Node.render, Node.renderAll]
  rw [writePaneCommand_eq, indent_twice]
  cases pane.Focus <;> simp [hsize, Builder.WriteString, String.ext_iff]

theorem forRange_step (lo hi : Nat) (body : Nat → Builder → Option Builder) (st : Builder)
    (h : lo < hi) :
    forRange lo hi body st = (body lo st).bind (forRange (lo + 1) hi body) := by
  unfold forRange
  obtain ⟨k, rfl⟩ : ∃ k, hi = lo + 1 + k := ⟨hi - lo - 1, by omega⟩
  have h1 : lo + 1 + k - lo = k + 1 := by omega
  have h2 : lo + 1 + k - (lo + 1) = k := by omega
  rw [h1, h2, List.range'_succ, List.foldlM_cons]
  rfl

theorem forRange_done (lo hi : Nat) (body : Nat → Builder → Option Builder) (st : Builder)
    (h : hi ≤ lo) : forRange lo hi body st = some st := by
  unfold forRange
  have : hi - lo = 0 := by omega
  rw [this]; rfl

/-- A counted loop whose body reads `panes[i]` and cannot fail otherwise is a left fold over
the panes from position `lo` on. -/
theorem forRange_panes (panes : List Pane) (body : Nat → Builder → Option Builder)
    (f : Pane → Builder → Builder)
    (hbody : ∀ i st p, panes[i]? = some p → body i st = some (f p st)) :
    ∀ (n lo : Nat) (st : Builder), lo + n = panes.length →
      forRange lo panes.length body st
        = some ((panes.drop lo).foldl (fun st p => f p st) st)
  | 0, lo, st, h => by
    rw [forRange_done _ _ _ _ (by omega), List.drop_of_length_le (by omega)]
    rfl
  | n + 1, lo, st, h => by
    have hlt : lo < panes.length := by omega
    rw [forRange_step _ _ _ _ hlt, hbody lo st panes[lo] (List.getElem?_eq_getElem hlt)]
    rw [List.drop_eq_getElem_cons hlt]
    simp only [Option.some_bind, List.foldl_cons]
    exact forRange_panes panes body f hbody n (lo + 1) _ (by omega)

theorem renderAll_eq_concatText (rt : Runtime) (rootDir : String) (envVars : EnvMap)
    (indent : String) (nodes : List Node) :
    Node.renderAll rt rootDir envVars indent nodes
      = concatText (nodes.map (Node.render rt rootDir envVars indent)) := by
  induction nodes with
  | nil => simp [Node.renderAll, concatText]
  | cons n ns ih => simp [Node.renderAll, concatText, ih]

/-- A fold whose step appends one text per pane and makes one `writePaneCommand` call. -/
theorem foldl_emit (f : Pane → Builder → Builder) (t : Pane → Nat → String)
    (hf : ∀ p st, f p st = ⟨st.buf ++ t p st.calls, st.calls + 1⟩) :
    ∀ (ps : List Pane) (st : Builder),
      ps.foldl (fun st p => f p st) st
        = ⟨st.buf ++ concatText ((ps.enumFrom st.calls).map (fun ip => t ip.2 ip.1)),
            st.calls + ps.length⟩
  | [], st => by simp [concatText]
  | p :: ps, st => by
    rw [List.foldl_cons, foldl_emit f t hf ps (f p st), hf]
    simp [concatText, String.append_assoc, Nat.add_assoc, Nat.add_comm 1]

theorem manualStep_eq (rt : Runtime) (st : Builder) (pane : Pane) (rootDir : String)
    (envVars : EnvMap) (indent : String) :
    (((((((((if pane.Split = "horizontal" then
          st.WriteString (indent ++ "pane split_direction=\"horizontal\"")
        else if pane.Split = "vertical" then
          st.WriteString (indent ++ "pane split_direction=\"vertical\"")
        else
          st.WriteString (indent ++ "pane split_direction=\"horizontal\"")) |>
      fun layout => if pane.Size ≠ "" then
        layout.WriteString (" size=\"" ++ pane.Size ++ "%\"") else layout) |>
      fun layout => layout.WriteString " \x7b\n") |>
      fun layout => layout.WriteString (indent ++ "    pane")) |>
      fun layout => if pane.Focus then layout.WriteString " focus=true" else layout) |>
      fun layout => layout.WriteString " \x7b\n") |>
      fun layout => writePaneCommand rt layout pane rootDir envVars (indent ++ "        ")) |>
      fun layout => layout.WriteString (indent ++ "    \x7d\n")) |>
      fun layout => layout.WriteString (indent ++ "\x7d\n"))
    = ⟨st.buf ++ (manualContainer pane st.calls).render rt rootDir envVars indent,
        st.calls + 1⟩ := by
  simp only [manualContainer, Node.render, Node.renderAll]
  rw [writePaneCommand_eq, indent_twice]
  by_cases h1 : pane.Split = "horizontal" <;> by_cases h2 : pane.Split = "vertical" <;>
    by_cases h3 : pane.Size = "" <;> cases pane.Focus <;>
    simp_all [Builder.WriteString, String.ext_iff]

theorem generatePanes_eq (rt : Runtime) (st : Builder) (panes : List Pane)
    (rootDir : String) (envVars : EnvMap) (indent : String) :
    generatePanes rt st panes rootDir envVars indent
      = some ⟨st.buf ++ Node.renderAll rt rootDir envVars indent
          (chainNodes manualContainer st.calls panes), st.calls + panes.length⟩ := by
  cases panes with
  | nil => simp [generatePanes, chainNodes, Node.renderAll]
  | cons p0 rest =>
    cases rest with
    | nil =>
      simp [generatePanes, chainNodes, Node.renderAll, writePaneWithCommand_eq]
    | cons p1 rest =>
      unfold generatePanes
      rw [if_neg (by simp), if_pos (by simp)]
      simp only [List.getElem?_cons_zero, Option.bind_eq_bind, Option.some_bind]
      rw [forRange_panes (p0 :: p1 :: rest) _
        (fun p st => ⟨st.buf ++ (manualContainer p st.calls).render rt rootDir envVars indent,
          st.calls + 1⟩) ?_ (rest.length + 1) 1 _ (by simp; omega)]
      · rw [foldl_emit _ (fun p k => (manualContainer p k).render rt rootDir envVars indent)
          (fun _ _ => rfl)]
        simp [writePaneWithCommand_eq, chainNodes, Node.renderAll, renderAll_eq_concatText,
          concatText, String.append_assoc, Function.comp_def]
        omega
      · intro i st p hp
        simp only [hp, Option.some_bind]
        exact congrArg some (manualStep_eq rt st p rootDir envVars indent)

theorem percent_ne_empty (n : Nat) : toString n ++ "%" ≠ "" := by
  intro h
  have h2 := congrArg String.length h
  rw [String.length_append] at h2
  have h3 : "%".length = 1 := rfl
  have h4 : "".length = 0 := rfl
  omega

theorem goDiv_succ (a n : Nat) : goDiv a (n + 1) = some (a / (n + 1)) := by
  simp [goDiv]

theorem forEach_succ_eq_foldl (body : Nat → Pane → Builder → Option Builder)
    (f : Pane → Builder → Builder) (hbody : ∀ i p st, body (i + 1) p st = some (f p st)) :
    ∀ (ps : List Pane) (i : Nat) (st : Builder),
      forEach body (i + 1) ps st = some (ps.foldl (fun st p => f p st) st)
  | [], _, _ => rfl
  | p :: ps, i, st => by
    simp only [forEach, hbody, Option.some_bind, List.foldl_cons]
    exact forEach_succ_eq_foldl body f hbody ps (i + 1) _

theorem evenLoop_eq (rt : Runtime) (dir : String) (n : Nat) (st : Builder) (panes : List Pane)
    (rootDir : String) (envVars : EnvMap) (indent : String) :
    forEach (fun i pane layout =>
        if i = 0 then
          some (writePaneWithCommand rt layout pane rootDir envVars indent)
        else
          some (writeSplitPane rt layout pane dir (toString n ++ "%")
            rootDir envVars indent)) 0 panes st
      = some ⟨st.buf ++ Node.renderAll rt rootDir envVars indent
          (chainNodes (fun p k => .split dir (some (toString n ++ "%")) [.leaf p k])
            st.calls panes), st.calls + panes.length⟩ := by
  cases panes with
  | nil => simp [forEach, chainNodes, Node.renderAll]
  | cons p0 rest =>
    simp only [forEach, if_pos, Option.some_bind]
    rw [forEach_succ_eq_foldl _
      (fun p st => ⟨st.buf ++ (Node.split dir (some (toString n ++ "%"))
        [.leaf p st.calls]).render rt rootDir envVars indent, st.calls + 1⟩)
      (fun i p st => by
        simp only [Nat.succ_ne_zero, if_false]
        exact congrArg some (writeSplitPane_eq rt st p dir _ rootDir envVars indent
          (percent_ne_empty n)))]
    rw [foldl_emit _ (fun p k => (Node.split dir (some (toString n ++ "%"))
      [.leaf p k]).render rt rootDir envVars indent) (fun _ _ => rfl)]
    simp [writePaneWithCommand_eq, chainNodes, Node.renderAll, renderAll_eq_concatText,
      concatText, String.append_assoc, Function.comp_def]
    omega

theorem fuel_evenHorizontal (fuel : Nat) (rt : Runtime) (st : Builder) (panes : List Pane)
    (rootDir : String) (envVars : EnvMap) (indent : String) :
    generatePanesWithLayoutFuel (fuel + 1) rt st "even-horizontal" panes rootDir envVars indent
      = some ⟨st.buf ++ Node.renderAll rt rootDir envVars indent
          (chainNodes (evenContainer "horizontal" panes.length) st.calls panes),
          st.calls + panes.length⟩ := by
  cases panes with
  | nil => simp [generatePanesWithLayoutFuel, chainNodes, Node.renderAll]
  | cons p0 rest =>
    unfold generatePanesWithLayoutFuel
    simp only [List.length_cons, Nat.succ_ne_zero, if_false, if_true, goDiv_succ,
      Option.bind_eq_bind, Option.some_bind]
    rw [evenLoop_eq]
    rfl

theorem fuel_evenVertical (fuel : Nat) (rt : Runtime) (st : Builder) (panes : List Pane)
    (rootDir : String) (envVars : EnvMap) (indent : String) :
    generatePanesWithLayoutFuel (fuel + 1) rt st "even-vertical" panes rootDir envVars indent
      = some ⟨st.buf ++ Node.renderAll rt rootDir envVars indent
          (chainNodes (evenContainer "vertical" panes.length) st.calls panes),
          st.calls + panes.length⟩ := by
  cases panes with
  | nil => simp [generatePanesWithLayoutFuel, chainNodes, Node.renderAll]
  | cons p0 rest =>
    unfold generatePanesWithLayoutFuel
    have hne : ¬ ("even-vertical" = "even-horizontal") := by decide
    simp only [List.length_cons, Nat.succ_ne_zero, if_false, if_true, goDiv_succ, hne,
      Option.bind_eq_bind, Option.some_bind]
    rw [evenLoop_eq]
    rfl

theorem splitLoop_eq (rt : Runtime) (dir size : String) (hsize : size ≠ "") (panes : List Pane)
    (lo : Nat) (hlo : lo ≤ panes.length) (st : Builder) (rootDir : String) (envVars : EnvMap)
    (indent : String) :
    forRange lo panes.length (fun i layout => (panes[i]?).bind fun pane =>
        some (writeSplitPane rt layout pane dir size rootDir envVars indent)) st
      = some ⟨st.buf ++ Node.renderAll rt rootDir envVars indent
          (((panes.drop lo).enumFrom st.calls).map
            (fun ip => .split dir (some size) [.leaf ip.2 ip.1])),
          st.calls + (panes.length - lo)⟩ := by
  rw [forRange_panes panes _
    (fun p st => ⟨st.buf ++ (Node.split dir (some size)
      [.leaf p st.calls]).render rt rootDir envVars indent, st.calls + 1⟩) ?_
    (panes.length - lo) lo st (by omega)]
  · rw [foldl_emit _ (fun p k => (Node.split dir (some size)
      [.leaf p k]).render rt rootDir envVars indent) (fun _ _ => rfl)]
    simp [renderAll_eq_concatText, Function.comp_def]
  · intro i st p hp
    simp only [hp, Option.some_bind]
    exact congrArg some (writeSplitPane_eq rt st p dir size rootDir envVars indent hsize)

theorem innerLeaf_eq (rt : Runtime) (st : Builder) (pane : Pane) (rootDir : String)
    (envVars : EnvMap) (indent : String) :
    (((((st.WriteString (indent ++ "    pane")) |>
      fun layout => if pane.Focus then layout.WriteString " focus=true" else layout) |>
      fun layout => layout.WriteString " \x7b\n") |>
      fun layout => writePaneCommand rt layout pane rootDir envVars (indent ++ "        ")) |>
      fun layout => layout.WriteString (indent ++ "    \x7d\n"))
    = ⟨st.buf ++ (Node.leaf pane st.calls).render rt rootDir envVars (indent ++ "    "),
        st.calls + 1⟩ := by
  simp only [Node.render]
  rw [writePaneCommand_eq, indent_twice]
  cases pane.Focus <;> simp [Builder.WriteString, String.ext_iff]

set_option maxRecDepth 8000 in
theorem fuel_mainVertical (fuel : Nat) (rt : Runtime) (st : Builder) (panes : List Pane)
    (rootDir : String) (envVars : EnvMap) (indent : String) :
    generatePanesWithLayoutFuel (fuel + 1) rt st "main-vertical" panes rootDir envVars indent
      = some ⟨st.buf ++ Node.renderAll rt rootDir envVars indent
          (mainNodes "vertical" "horizontal" st.calls panes), st.calls + panes.length⟩ := by
  have h1 : ¬ ("main-vertical" = "even-horizontal") := by decide
  have h2 : ¬ ("main-vertical" = "even-vertical") := by decide
  match panes with
  | [] => simp [generatePanesWithLayoutFuel, mainNodes, Node.renderAll]
  | [p0] =>
    simp [generatePanesWithLayoutFuel, mainNodes, Node.renderAll, writePaneWithCommand_eq]
  | p0 :: p1 :: rest =>
    unfold generatePanesWithLayoutFuel
    simp only [h1, h2, List.length_cons, Nat.succ_ne_zero, if_false, if_true,
      List.getElem?_cons_zero, List.getElem?_cons_succ, Option.bind_eq_bind, Option.some_bind,
      Nat.add_eq_right, Nat.succ.injEq, Nat.add_one_sub_one, goDiv_succ]
    have hleaf := innerLeaf_eq rt ((writePaneWithCommand rt st p0 rootDir envVars
      indent).WriteString (indent ++ "pane split_direction=\"vertical\" size=\"30%\" \x7b\n"))
      p1 rootDir envVars indent
    simp only [] at hleaf
    rw [hleaf]
    have hloop := splitLoop_eq rt "horizontal" (toString (100 / (rest.length + 1)) ++ "%")
      (percent_ne_empty _) (p0 :: p1 :: rest) 2 (by simp)
    simp only [List.length_cons] at hloop
    cases rest with
    | nil =>
      simp [mainNodes, Node.renderAll, Node.render, writePaneWithCommand_eq,
        Builder.WriteString, String.ext_iff]
    | cons p2 rest =>
      have hgt : (p2 :: rest).length + 1 + 1 > 2 := by simp
      rw [if_pos hgt, hloop]
      simp [mainNodes, evenContainer, Node.renderAll, Node.render, writePaneWithCommand_eq,
        Builder.WriteString, String.ext_iff, Nat.add_assoc]
      omega

set_option maxRecDepth 8000 in
theorem fuel_mainHorizontal (fuel : Nat) (rt : Runtime) (st : Builder) (panes : List Pane)
    (rootDir : String) (envVars : EnvMap) (indent : String) :
    generatePanesWithLayoutFuel (fuel + 1) rt st "main-horizontal" panes rootDir envVars indent
      = some ⟨st.buf ++ Node.renderAll rt rootDir envVars indent
          (mainNodes "horizontal" "vertical" st.calls panes), st.calls + panes.length⟩ := by
  have h1 : ¬ ("main-horizontal" = "even-horizontal") := by decide
  have h2 : ¬ ("main-horizontal" = "even-vertical") := by decide
  have h3 : ¬ ("main-horizontal" = "main-vertical") := by decide
  match panes with
  | [] => simp [generatePanesWithLayoutFuel, mainNodes, Node.renderAll]
  | [p0] =>
    simp [generatePanesWithLayoutFuel, mainNodes, Node.renderAll, writePaneWithCommand_eq]
  | p0 :: p1 :: rest =>
    unfold generatePanesWithLayoutFuel
    simp only [h1, h2, h3, List.length_cons, Nat.succ_ne_zero, if_false, if_true,
      List.getElem?_cons_zero, List.getElem?_cons_succ, Option.bind_eq_bind, Option.some_bind,
      Nat.add_eq_right, Nat.succ.injEq, Nat.add_one_sub_one, goDiv_succ]
    have hleaf := innerLeaf_eq rt ((writePaneWithCommand rt st p0 rootDir envVars
      indent).WriteString (indent ++ "pane split_direction=\"horizontal\" size=\"30%\" \x7b\n"))
      p1 rootDir envVars indent
    simp only [] at hleaf
    rw [hleaf]
    have hloop := splitLoop_eq rt "vertical" (toString (100 / (rest.length + 1)) ++ "%")
      (percent_ne_empty _) (p0 :: p1 :: rest) 2 (by simp)
    simp only [List.length_cons] at hloop
    cases rest with
    | nil =>
      simp [mainNodes, Node.renderAll, Node.render, writePaneWithCommand_eq,
        Builder.WriteString, String.ext_iff]
    | cons p2 rest =>
      have hgt : (p2 :: rest).length + 1 + 1 > 2 := by simp
      rw [if_pos hgt, hloop]
      simp [mainNodes, evenContainer, Node.renderAll, Node.render, writePaneWithCommand_eq,
        Builder.WriteString, String.ext_iff, Nat.add_assoc]
      omega


set_option maxRecDepth 8000 in
theorem fuel_tiled (fuel : Nat) (rt : Runtime) (st : Builder) (panes : List Pane)
    (rootDir : String) (envVars : EnvMap) (indent : String) :
    generatePanesWithLayoutFuel (fuel + 2) rt st "tiled" panes rootDir envVars indent
      = some ⟨st.buf ++ Node.renderAll rt rootDir envVars indent (tiledNodes st.calls panes),
          st.calls + panes.length⟩ := by
  have h1 : ¬ ("tiled" = "even-horizontal") := by decide
  have h2 : ¬ ("tiled" = "even-vertical") := by decide
  have h3 : ¬ ("tiled" = "main-vertical") := by decide
  have h4 : ¬ ("tiled" = "main-horizontal") := by decide
  have h50 : ("50%" : String) ≠ "" := by decide
  match panes with
  | [] => simp [generatePanesWithLayoutFuel, tiledNodes, chainNodes, Node.renderAll]
  | [p0] =>
    unfold generatePanesWithLayoutFuel
    simp only [h1, h2, h3, h4, List.length_cons, List.length_nil, Nat.succ_ne_zero, if_false,
      if_true, Nat.zero_add, Nat.one_le_ofNat, fuel_evenVertical]
    simp [tiledNodes]
  | [p0, p1] =>
    unfold generatePanesWithLayoutFuel
    simp only [h1, h2, h3, h4, List.length_cons, List.length_nil, Nat.succ_ne_zero, if_false,
      if_true, Nat.zero_add, Nat.reduceAdd, Nat.le_refl, fuel_evenVertical]
    simp [tiledNodes]
  | [p0, p1, p2] =>
    unfold generatePanesWithLayoutFuel
    simp only [h1, h2, h3, h4, List.length_cons, List.length_nil, Nat.succ_ne_zero, if_false,
      if_true, Nat.zero_add, Nat.reduceAdd, Nat.reduceLeDiff,
      List.getElem?_cons_zero, List.getElem?_cons_succ, Option.bind_eq_bind, Option.some_bind]
    have hleaf := innerLeaf_eq rt ((writePaneWithCommand rt st p0 rootDir envVars
      indent).WriteString (indent ++ "pane split_direction=\"vertical\" size=\"50%\" \x7b\n"))
      p1 rootDir envVars indent
    simp only [] at hleaf
    rw [hleaf, writeSplitPane_eq _ _ _ _ _ _ _ _ h50]
    simp [tiledNodes, Node.renderAll, Node.render, writePaneWithCommand_eq,
      Builder.WriteString, String.ext_iff]
  | [p0, p1, p2, p3] =>
    unfold generatePanesWithLayoutFuel
    simp only [h1, h2, h3, h4, List.length_cons, List.length_nil, Nat.succ_ne_zero, if_false,
      if_true, Nat.zero_add, Nat.reduceAdd, Nat.reduceLeDiff, Nat.reduceEqDiff,
      List.getElem?_cons_zero, List.getElem?_cons_succ, Option.bind_eq_bind, Option.some_bind]
    have hleaf := innerLeaf_eq rt ((writeSplitPane rt (writePaneWithCommand rt st p0 rootDir
      envVars indent) p1 "vertical" "50%" rootDir envVars indent).WriteString
      (indent ++ "pane split_direction=\"horizontal\" size=\"50%\" \x7b\n"))
      p2 rootDir envVars indent
    simp only [] at hleaf
    rw [hleaf, writeSplitPane_eq _ _ _ _ _ _ _ _ h50, writeSplitPane_eq _ _ _ _ _ _ _ _ h50]
    simp [tiledNodes, Node.renderAll, Node.render, writePaneWithCommand_eq,
      Builder.WriteString, String.ext_iff]
  | p0 :: p1 :: p2 :: p3 :: p4 :: rest =>
    unfold generatePanesWithLayoutFuel
    have hn0 : ¬ ((p0 :: p1 :: p2 :: p3 :: p4 :: rest).length = 0) := by simp
    have hn2 : ¬ ((p0 :: p1 :: p2 :: p3 :: p4 :: rest).length ≤ 2) := by simp
    have hn3 : ¬ ((p0 :: p1 :: p2 :: p3 :: p4 :: rest).length = 3) := by simp
    have hn4 : ¬ ((p0 :: p1 :: p2 :: p3 :: p4 :: rest).length = 4) := by simp
    simp only [h1, h2, h3, h4, hn0, hn2, hn3, hn4, if_false, if_true, fuel_evenHorizontal]
    simp [tiledNodes]

theorem fuel_default (fuel : Nat) (rt : Runtime) (st : Builder) (layoutType : String)
    (panes : List Pane) (rootDir : String) (envVars : EnvMap) (indent : String)
    (h1 : layoutType ≠ "even-horizontal") (h2 : layoutType ≠ "even-vertical")
    (h3 : layoutType ≠ "main-vertical") (h4 : layoutType ≠ "main-horizontal")
    (h5 : layoutType ≠ "tiled") :
    generatePanesWithLayoutFuel (fuel + 1) rt st layoutType panes rootDir envVars indent
      = generatePanes rt st panes rootDir envVars indent := by
  unfold generatePanesWithLayoutFuel
  simp only [h1, h2, h3, h4, h5, if_false]
  cases panes with
  | nil => simp [generatePanes]
  | cons p ps => simp

/-- What `generatePanesWithLayout` appends for any pattern name and any pane list: the
serialisation of the tree `patternNodes`, with one `writePaneCommand` call per pane. -/
theorem generatePanesWithLayout_eq (rt : Runtime) (st : Builder) (layoutType : String)
    (panes : List Pane) (rootDir : String) (envVars : EnvMap) (indent : String) :
    generatePanesWithLayout rt st layoutType panes rootDir envVars indent
      = some ⟨st.buf ++ Node.renderAll rt rootDir envVars indent
          (patternNodes layoutType st.calls panes), st.calls + panes.length⟩ := by
  unfold generatePanesWithLayout patternNodes
  by_cases h1 : layoutType = "even-horizontal"
  · subst h1; simp [fuel_evenHorizontal]
  by_cases h2 : layoutType = "even-vertical"
  · subst h2; simp [fuel_evenVertical]
  by_cases h3 : layoutType = "main-vertical"
  · subst h3; simp [fuel_mainVertical]
  by_cases h4 : layoutType = "main-horizontal"
  · subst h4; simp [fuel_mainHorizontal]
  by_cases h5 : layoutType = "tiled"
  · subst h5; simp [fuel_tiled]
  rw [fuel_default 1 rt st layoutType panes rootDir envVars indent h1 h2 h3 h4 h5,
    generatePanes_eq]
  simp [h1, h2, h3, h4, h5]

/-! ### Library functions -/

theorem intercalate_go (sep : String) :
    ∀ (l : List String) (acc : String),
      String.intercalate.go acc sep l = acc ++ concatText (l.map (fun s => sep ++ s))
  | [], acc => by simp [String.intercalate.go, concatText]
  | a :: l, acc => by
    simp [String.intercalate.go, concatText, intercalate_go sep l, String.append_assoc]

theorem Join_cons (sep a : String) :
    ∀ l : List String, Join (a :: l) sep = a ++ concatText (l.map (fun s => sep ++ s))
  | [] => by simp [Join, concatText]
  | b :: l => by
    simp [Join, concatText, Join_cons sep b l, String.append_assoc]

/-- The model of `strings.Join` agrees with `String.intercalate`. -/
theorem Join_eq_intercalate (l : List String) (sep : String) :
    Join l sep = sep.intercalate l := by
  cases l with
  | nil => rfl
  | cons a l => rw [Join_cons]; simp [String.intercalate, intercalate_go]

theorem scan_quote (new : List Char) :
    ∀ cs : List Char,
      ReplaceAll.scan ['"'] new 0 cs = cs.flatMap (fun c => if c = '"' then new else [c])
  | [] => rfl
  | c :: cs => by
    by_cases h : c = '"'
    · subst h
      simp [ReplaceAll.scan, List.isPrefixOf, scan_quote new cs]
    · have hb : ('"' == c) = false := by
        simp only [beq_eq_false_iff_ne, ne_eq]
        exact fun h2 => h h2.symm
      simp [ReplaceAll.scan, List.isPrefixOf, scan_quote new cs, h, hb]

/-- Replacing `"` by `\"` with `strings.ReplaceAll` acts on every character separately. -/
theorem ReplaceAll_quote (s : String) :
    (ReplaceAll s "\"" "\\\"").data
      = s.data.flatMap (fun c => if c = '"' then ['\\', '"'] else [c]) := by
  have hne : ¬ (("\"" : String) = "") := by decide
  simp only [ReplaceAll, hne, if_false]
  exact scan_quote _ _

/-! ### The whole layout -/

theorem quotesEscaped_flatMap (cs : List Char) :
    ∀ b : Bool,
      quotesEscaped b (cs.flatMap (fun c => if c = '"' then ['\\', '"'] else [c])) = true := by
  induction cs with
  | nil => intro b; rfl
  | cons c cs ih =>
    intro b
    rw [List.flatMap_cons]
    by_cases h : c = '"'
    · subst h
      rw [if_pos rfl, List.cons_append, List.cons_append, List.nil_append]
      simp only [quotesEscaped]
      rw [ih]
      simp
    · rw [if_neg h, List.cons_append, List.nil_append]
      simp only [quotesEscaped]
      rw [ih]
      simp [h]

theorem patternNodes_empty (call : Nat) (panes : List Pane) :
    patternNodes "" call panes = chainNodes manualContainer call panes := by
  have h1 : ¬ (("" : String) = "even-horizontal") := by decide
  have h2 : ¬ (("" : String) = "even-vertical") := by decide
  have h3 : ¬ (("" : String) = "main-vertical") := by decide
  have h4 : ¬ (("" : String) = "main-horizontal") := by decide
  have h5 : ¬ (("" : String) = "tiled") := by decide
  simp [patternNodes, h1, h2, h3, h4, h5]

theorem tabStep_eq (rt : Runtime) (rootDir : String) (envVars : EnvMap) (focused : Nat)
    (i : Nat) (tab : Tab) (st : Builder) :
    (do
      let isFocusedTab := i = focused
      let layout := st.WriteString ("    tab name=\"" ++ tab.Name ++ "\"")
      let layout := layout.WriteString (" cwd=\"" ++ rootDir ++ "\"")
      let layout := if isFocusedTab then layout.WriteString " focus=true" else layout
      let layout := layout.WriteString " \x7b\n"
      let layout ←
        if tab.Layout ≠ "" then
          generatePanesWithLayout rt layout tab.Layout tab.Panes rootDir envVars "        "
        else
          generatePanes rt layout tab.Panes rootDir envVars "        "
      some (layout.WriteString "    \x7d\n"))
    = some ⟨st.buf ++ ("    tab name=\"" ++ tab.Name ++ "\" cwd=\"" ++ rootDir ++ "\""
          ++ (if i = focused then " focus=true" else "") ++ " \x7b\n"
          ++ Node.renderAll rt rootDir envVars "        "
              (patternNodes tab.Layout st.calls tab.Panes) ++ "    \x7d\n"),
        st.calls + tab.Panes.length⟩ := by
  simp only [Option.bind_eq_bind]
  by_cases h : tab.Layout = ""
  · rw [if_neg (not_not.mpr h), generatePanes_eq]
    by_cases hf : i = focused <;>
      simp [h, hf, patternNodes_empty, Builder.WriteString, String.ext_iff]
  · rw [if_pos h, generatePanesWithLayout_eq]
    by_cases hf : i = focused <;>
      simp [hf, Builder.WriteString, String.ext_iff]

theorem tabLoop_eq (rt : Runtime) (rootDir : String) (envVars : EnvMap) (focused : Nat)
    (body : Nat → Tab → Builder → Option Builder)
    (hbody : ∀ i tab st, body i tab st
      = some ⟨st.buf ++ ("    tab name=\"" ++ tab.Name ++ "\" cwd=\"" ++ rootDir ++ "\""
          ++ (if i = focused then " focus=true" else "") ++ " \x7b\n"
          ++ Node.renderAll rt rootDir envVars "        "
              (patternNodes tab.Layout st.calls tab.Panes) ++ "    \x7d\n"),
        st.calls + tab.Panes.length⟩) :
    ∀ (tabs : List Tab) (i : Nat) (st : Builder),
      forEach body i tabs st
        = some ⟨st.buf ++ concatText (List.zipWith
              (fun (it : Nat × Tab) (body : String) =>
                "    tab name=\"" ++ it.2.Name ++ "\" cwd=\"" ++ rootDir ++ "\""
                  ++ (if it.1 = focused then " focus=true" else "") ++ " \x7b\n"
                  ++ body ++ "    \x7d\n")
              (tabs.enumFrom i) (tabBodies rt rootDir envVars st.calls tabs)),
            st.calls + (tabs.map (fun t => t.Panes.length)).sum⟩
  | [], i, st => by simp [forEach, concatText, tabBodies]
  | tab :: tabs, i, st => by
    rw [forEach, hbody, Option.some_bind, tabLoop_eq rt rootDir envVars focused body hbody tabs]
    simp [tabBodies, concatText, String.append_assoc, Nat.add_assoc]

/-- The text of the whole layout: session line, scaffold, one block per tab, closing brace. -/
theorem GenerateLayout_eq (rt : Runtime) (project : Project) :
    GenerateLayout rt project
      = some (sessionLine project ++ scaffoldText project.DefaultLayout
          ++ concatText (List.zipWith
              (fun (it : Nat × Tab) (body : String) =>
                "    tab name=\"" ++ it.2.Name ++ "\" cwd=\"" ++ project.Root ++ "\""
                  ++ (if it.1 = focusedTabIndexFrom 0 project.Tabs then " focus=true" else "")
                  ++ " \x7b\n" ++ body ++ "    \x7d\n")
              project.Tabs.enum (tabBodies rt project.Root project.Env 0 project.Tabs))
          ++ "\x7d\n") := by
  unfold GenerateLayout
  show (forEach _ 0 project.Tabs _ >>= _) = _
  rw [tabLoop_eq rt project.Root project.Env (focusedTabIndexFrom 0 project.Tabs) _
    (fun i tab st => tabStep_eq rt project.Root project.Env _ i tab st)]
  by_cases h1 : project.DefaultLayout = ""
  · simp [h1, sessionLine, scaffoldText, Builder.WriteString, String.append_assoc, List.enum]
  · by_cases h2 : project.DefaultLayout = "compact"
    · simp [h2, sessionLine, scaffoldText, Builder.WriteString, String.append_assoc, List.enum]
    · simp [h1, h2, sessionLine, scaffoldText, Builder.WriteString, String.ext_iff,
        List.enum]

/-! ### Leaves of the prescribed trees -/

theorem leavesAll_map_wrap (wrap : Pane → Nat → Node)
    (hwrap : ∀ p k, (wrap p k).leaves = [(k, p)]) :
    ∀ l : List (Nat × Pane), Node.leavesAll (l.map (fun ip => wrap ip.2 ip.1)) = l
  | [] => rfl
  | ip :: l => by
    simp [Node.leavesAll, hwrap, leavesAll_map_wrap wrap hwrap l]

theorem leavesAll_chainNodes (wrap : Pane → Nat → Node)
    (hwrap : ∀ p k, (wrap p k).leaves = [(k, p)]) (call : Nat) (panes : List Pane) :
    Node.leavesAll (chainNodes wrap call panes) = panes.enumFrom call := by
  cases panes with
  | nil => rfl
  | cons p0 rest =>
    simp [chainNodes, Node.leavesAll, Node.leaves, leavesAll_map_wrap wrap hwrap]

theorem leaves_evenContainer (dir : String) (n : Nat) (p : Pane) (k : Nat) :
    (evenContainer dir n p k).leaves = [(k, p)] := by
  simp [evenContainer, Node.leaves, Node.leavesAll]

theorem leaves_manualContainer (p : Pane) (k : Nat) :
    (manualContainer p k).leaves = [(k, p)] := by
  simp [manualContainer, Node.leaves, Node.leavesAll]

theorem leavesAll_mainNodes (outer inner : String) (call : Nat) (panes : List Pane) :
    Node.leavesAll (mainNodes outer inner call panes) = panes.enumFrom call := by
  match panes with
  | [] => rfl
  | [p0] => rfl
  | p0 :: p1 :: rest =>
    simp [mainNodes, Node.leavesAll, Node.leaves,
      leavesAll_map_wrap _ (leaves_evenContainer inner (rest.length + 1))]

theorem leavesAll_tiledNodes (call : Nat) (panes : List Pane) :
    Node.leavesAll (tiledNodes call panes) = panes.enumFrom call := by
  match panes with
  | [] => rfl
  | [p0] => rfl
  | [p0, p1] => rfl
  | [p0, p1, p2] => rfl
  | [p0, p1, p2, p3] => rfl
  | p0 :: p1 :: p2 :: p3 :: p4 :: rest =>
    simp only [tiledNodes]
    split <;> exact leavesAll_chainNodes _ (leaves_evenContainer _ _) _ _

/-- The leaves of the tree prescribed for a tab are its panes, each once, in declaration
order, numbered consecutively. -/
theorem leavesAll_patternNodes (layoutType : String) (call : Nat) (panes : List Pane) :
    Node.leavesAll (patternNodes layoutType call panes) = panes.enumFrom call := by
  unfold patternNodes
  split
  · exact leavesAll_chainNodes _ (leaves_evenContainer _ _) _ _
  split
  · exact leavesAll_chainNodes _ (leaves_evenContainer _ _) _ _
  split
  · exact leavesAll_mainNodes _ _ _ _
  split
  · exact leavesAll_mainNodes _ _ _ _
  split
  · exact leavesAll_tiledNodes _ _
  · exact leavesAll_chainNodes _ leaves_manualContainer _ _

/-! ### Dependence on the runtime -/

theorem perm_eq_of_length_le_one {α : Type} {l m : List α} (h : l.Perm m)
    (hm : m.length ≤ 1) : l = m := by
  match m, hm with
  | [], _ => exact h.eq_nil
  | [a], _ => exact List.perm_singleton.mp h

/-- With the same `SHELL`, the text written for a pane depends on the map iteration order
only if the map has two or more entries and the pane has a command. -/
theorem writePaneCommand_congr (rt1 rt2 : Runtime) (hshell : rt1.SHELL = rt2.SHELL)
    (st : Builder) (pane : Pane) (rootDir : String) (envVars : EnvMap) (indent : String)
    (h : envVars.length ≤ 1 ∨ pane.Commands = []) :
    writePaneCommand rt1 st pane rootDir envVars indent
      = writePaneCommand rt2 st pane rootDir envVars indent := by
  rcases h with h | h
  · have e1 := perm_eq_of_length_le_one (rt1.rangeOrder_perm st.calls envVars) h
    have e2 := perm_eq_of_length_le_one (rt2.rangeOrder_perm st.calls envVars) h
    simp only [writePaneCommand, hshell, e1, e2]
  · simp [writePaneCommand, hshell, h]

mutual
theorem render_congr (rt1 rt2 : Runtime) (hshell : rt1.SHELL = rt2.SHELL) (rootDir : String)
    (envVars : EnvMap) :
    ∀ (node : Node) (indent : String),
      (∀ ip ∈ node.leaves, envVars.length ≤ 1 ∨ ip.2.Commands = []) →
      node.render rt1 rootDir envVars indent = node.render rt2 rootDir envVars indent
  | .leaf pane call, indent, h => by
    simp only [Node.render]
    rw [writePaneCommand_congr rt1 rt2 hshell _ pane rootDir envVars _
      (h (call, pane) (by simp [Node.leaves]))]
  | .split direction size children, indent, h => by
    simp only [Node.render]
    rw [renderAll_congr rt1 rt2 hshell rootDir envVars children _
      (fun ip hip => h ip (by simpa [Node.leaves] using hip))]
theorem renderAll_congr (rt1 rt2 : Runtime) (hshell : rt1.SHELL = rt2.SHELL) (rootDir : String)
    (envVars : EnvMap) :
    ∀ (nodes : List Node) (indent : String),
      (∀ ip ∈ Node.leavesAll nodes, envVars.length ≤ 1 ∨ ip.2.Commands = []) →
      Node.renderAll rt1 rootDir envVars indent nodes
        = Node.renderAll rt2 rootDir envVars indent nodes
  | [], _, _ => rfl
  | n :: ns, indent, h => by
    simp only [Node.renderAll]
    rw [render_congr rt1 rt2 hshell rootDir envVars n indent
        (fun ip hip => h ip (by simp [Node.leavesAll, hip])),
      renderAll_congr rt1 rt2 hshell rootDir envVars ns indent
        (fun ip hip => h ip (by simp [Node.leavesAll, hip]))]
end

theorem tabBodies_congr (rt1 rt2 : Runtime) (hshell : rt1.SHELL = rt2.SHELL) (rootDir : String)
    (envVars : EnvMap) :
    ∀ (tabs : List Tab) (call : Nat),
      (envVars.length ≤ 1 ∨ ∀ tab ∈ tabs, ∀ pane ∈ tab.Panes, pane.Commands = []) →
      tabBodies rt1 rootDir envVars call tabs = tabBodies rt2 rootDir envVars call tabs
  | [], _, _ => rfl
  | tab :: tabs, call, h => by
    simp only [tabBodies]
    rw [tabBodies_congr rt1 rt2 hshell rootDir envVars tabs _
        (h.imp id (fun h2 t ht => h2 t (List.mem_cons_of_mem _ ht))),
      renderAll_congr rt1 rt2 hshell rootDir envVars _ _ ?_]
    intro ip hip
    rw [leavesAll_patternNodes] at hip
    rcases h with h | h
    · exact Or.inl h
    · refine Or.inr (h tab (List.mem_cons_self _ _) ip.2 ?_)
      have := List.mem_map_of_mem Prod.snd hip
      rwa [List.enumFrom_map_snd] at this

/-! ## Claims -/

/-- C1: for a pane with at least one command, `writePaneCommand` appends the two lines
`command "sh"` and `args "-c" "L'"` (each behind the indentation), where `L'` is `L` with
every `"` replaced by `\"` and `L = E ++ "cd '" ++ root ++ "' && " ++ commands joined by
`" && "` `++ "; exec " ++ S`, with `S` the `SHELL` value or `/bin/bash` when that is empty;
`E` is empty for an empty map and otherwise one `export K='V'` per entry, each entry once in
some order, joined by `"; "` and followed by `"; "`.  For commands `echo hi`, `ls -la`, root
`/tmp/proj`, no `SHELL` and no environment, `L` is
`cd '/tmp/proj' && echo hi && ls -la; exec /bin/bash`. -/
theorem C1_command_line (rt : Runtime) (st : Builder) (pane : Pane) (root : String)
    (env : EnvMap) (indent : String) (hcmd : pane.Commands ≠ []) :
    (∃ E L L' : String,
      ((env = [] → E = "") ∧
        (env ≠ [] → ∃ order : List (String × String), order.Perm env ∧
          E = "; ".intercalate (order.map (fun kv => "export " ++ kv.1 ++ "='" ++ kv.2 ++ "'"))
                ++ "; ")) ∧
      L = E ++ "cd '" ++ root ++ "' && " ++ " && ".intercalate pane.Commands ++ "; exec "
            ++ (if rt.SHELL = "" then "/bin/bash" else rt.SHELL) ∧
      L'.data = L.data.flatMap (fun c => if c = '"' then ['\\', '"'] else [c]) ∧
      (writePaneCommand rt st pane root env indent).buf
        = st.buf ++ indent ++ "command \"sh\"\n" ++ indent ++ "args \"-c\" \"" ++ L' ++ "\"\n") ∧
    (pane.Commands = ["echo hi", "ls -la"] → root = "/tmp/proj" → rt.SHELL = "" → env = [] →
      (writePaneCommand rt st pane root env indent).buf
        = st.buf ++ indent ++ "command \"sh\"\n" ++ indent
            ++ "args \"-c\" \"cd '/tmp/proj' && echo hi && ls -la; exec /bin/bash\"\n") := by
  have hlen : pane.Commands.length > 0 := List.length_pos.mpr hcmd
  constructor
  · by_cases henv : env = []
    · refine ⟨"", _, ReplaceAll _ "\"" "\\\"", ⟨fun _ => rfl, fun h => absurd henv h⟩, rfl,
        ReplaceAll_quote _, ?_⟩
      subst henv
      simp [writePaneCommand, hlen, Builder.WriteString, Join_eq_intercalate,
        String.append_assoc]
    · have hpos : env.length > 0 := List.length_pos.mpr henv
      refine ⟨_, _, ReplaceAll _ "\"" "\\\"",
        ⟨fun h => absurd h henv, fun _ => ⟨rt.rangeOrder st.calls env,
          rt.rangeOrder_perm _ _, rfl⟩⟩, rfl, ReplaceAll_quote _, ?_⟩
      simp [writePaneCommand, hlen, hpos, Builder.WriteString, Join_eq_intercalate,
        String.append_assoc]
  · intro h1 h2 h3 h4
    subst h2 h4
    have hq : ReplaceAll "cd '/tmp/proj' && echo hi && ls -la; exec /bin/bash" "\"" "\\\""
        = "cd '/tmp/proj' && echo hi && ls -la; exec /bin/bash" := by decide
    simp [writePaneCommand, h1, h3, Builder.WriteString, Join, hq, String.append_assoc]

/-- C1 at the input of the specification: commands `echo hi` and `ls -la`, root `/tmp/proj`,
`SHELL` unset, empty environment. -/
theorem C1_command_line_witness :
    (⟨false, ["echo hi", "ls -la"], "", ""⟩ : Pane).Commands ≠ [] ∧
    (writePaneCommand (Runtime.inOrder "") ⟨"", 0⟩ ⟨false, ["echo hi", "ls -la"], "", ""⟩
        "/tmp/proj" [] "").buf
      = "command \"sh\"\nargs \"-c\" \"cd '/tmp/proj' && echo hi && ls -la; exec /bin/bash\"\n" :=
  ⟨by decide,
    (C1_command_line (Runtime.inOrder "") ⟨"", 0⟩ ⟨false, ["echo hi", "ls -la"], "", ""⟩
      "/tmp/proj" [] "" (by decide)).2 rfl rfl rfl rfl⟩

theorem flatMap_quote_prefix (cs rest : List Char) (h : ∀ c ∈ cs, c ≠ '"') :
    (cs ++ rest).flatMap (fun c => if c = '"' then ['\\', '"'] else [c])
      = cs ++ rest.flatMap (fun c => if c = '"' then ['\\', '"'] else [c]) := by
  induction cs with
  | nil => rfl
  | cons c cs ih =>
    have hc : c ≠ '"' := h c (List.mem_cons_self _ _)
    have := ih (fun d hd => h d (List.mem_cons_of_mem _ hd))
    simp_all [List.flatMap_cons]

/-- C2: for a pane without commands `writePaneCommand` appends `command "sh"` and the `args`
line whose argument is `cd '<root>'; exec <shell>`, whatever the environment map; and the
argument written for any pane starts with `export ` exactly when the pane has at least one
command and the map is non-empty. -/
theorem C2_no_commands_no_export (rt : Runtime) (st : Builder) (pane : Pane) (root : String)
    (env : EnvMap) (indent : String) :
    (pane.Commands = [] →
      (writePaneCommand rt st pane root env indent).buf
        = st.buf ++ indent ++ "command \"sh\"\n" ++ indent ++ "args \"-c\" \""
            ++ ("cd '" ++ root ++ "'; exec " ++ (if rt.SHELL = "" then "/bin/bash" else rt.SHELL))
            ++ "\"\n") ∧
    ((st.buf ++ indent ++ "command \"sh\"\n" ++ indent ++ "args \"-c\" \"" ++ "export ").data
        <+: (writePaneCommand rt st pane root env indent).buf.data
      ↔ pane.Commands ≠ [] ∧ env ≠ []) := by
  constructor
  · intro h
    simp [writePaneCommand, h, Builder.WriteString, String.append_assoc]
  · by_cases hcmd : pane.Commands = []
    · simp [writePaneCommand, hcmd, Builder.WriteString, List.prefix_append_right_inj,
        List.append_assoc]
    · have hlen : pane.Commands.length > 0 := List.length_pos.mpr hcmd
      by_cases henv : env = []
      · subst henv
        have hq := flatMap_quote_prefix ['c', 'd', ' ']
          ('\'' :: (root ++ "' && " ++ Join pane.Commands " && " ++ "; exec "
            ++ (if rt.SHELL = "" then "/bin/bash" else rt.SHELL)).data) (by decide)
        simp [writePaneCommand, hcmd, hlen, Builder.WriteString, List.prefix_append_right_inj,
          List.append_assoc, ReplaceAll_quote] at hq ⊢
      · have hpos : env.length > 0 := List.length_pos.mpr henv
        have hperm := rt.rangeOrder_perm st.calls env
        obtain ⟨kv, tl, hord⟩ : ∃ kv tl, rt.rangeOrder st.calls env = kv :: tl := by
          cases hro : rt.rangeOrder st.calls env with
          | nil => rw [hro] at hperm; exact absurd hperm.symm.eq_nil henv
          | cons kv tl => exact ⟨kv, tl, rfl⟩
        have hq := fun rest => flatMap_quote_prefix ['e', 'x', 'p', 'o', 'r', 't', ' '] rest
          (by decide)
        simp [writePaneCommand, hcmd, henv, hlen, hpos, hord, Builder.WriteString,
          List.prefix_append_right_inj, List.append_assoc, ReplaceAll_quote, Join_cons, hq]

/-- C2 at the input of the specification: environment `FOO=bar`, no commands. -/
theorem C2_no_commands_no_export_witness :
    (⟨false, [], "", ""⟩ : Pane).Commands = [] ∧
    (writePaneCommand (Runtime.inOrder "") ⟨"", 0⟩ ⟨false, [], "", ""⟩ "/tmp/proj"
        [("FOO", "bar")] "").buf
      = "command \"sh\"\nargs \"-c\" \"cd '/tmp/proj'; exec /bin/bash\"\n" :=
  ⟨rfl, (C2_no_commands_no_export (Runtime.inOrder "") ⟨"", 0⟩ ⟨false, [], "", ""⟩ "/tmp/proj"
    [("FOO", "bar")] "").1 rfl⟩

/-- C3 (evaluation at the failing input): for a pane without commands and the root directory
`/tmp/my"proj`, the text between the quotes of the `args` line is `cd '/tmp/my"proj'; exec
/bin/bash`, in which the double quote is not preceded by a backslash; for a pane with a command
the same root is written as `/tmp/my\"proj`. -/
theorem C3_quote_not_escaped_without_commands :
    (writePaneCommand (Runtime.inOrder "") ⟨"", 0⟩ ⟨false, [], "", ""⟩ "/tmp/my\"proj" [] "").buf
        = "command \"sh\"\nargs \"-c\" \"" ++ "cd '/tmp/my\"proj'; exec /bin/bash" ++ "\"\n" ∧
      quotesEscaped false "cd '/tmp/my\"proj'; exec /bin/bash".data = false ∧
    (writePaneCommand (Runtime.inOrder "") ⟨"", 0⟩ ⟨false, ["ls"], "", ""⟩ "/tmp/my\"proj" []
          "").buf
        = "command \"sh\"\nargs \"-c\" \"" ++ "cd '/tmp/my\\\"proj' && ls; exec /bin/bash"
            ++ "\"\n" ∧
      quotesEscaped false "cd '/tmp/my\\\"proj' && ls; exec /bin/bash".data = true := by
  decide

set_option maxRecDepth 100000 in
/-- C4 (counterexample): a project with two environment entries and a pane with a command,
compiled in two runs with the same `SHELL` whose map iterations yield the entries in different
orders, gives two different texts. -/
theorem C4_not_deterministic :
    (Runtime.inOrder "").SHELL = (Runtime.reversed "").SHELL ∧
    GenerateLayout (Runtime.inOrder "")
        ⟨"demo", "/srv", "", "", "", [⟨"main", false, "", [⟨false, ["ls"], "", ""⟩]⟩],
          [("A", "1"), ("B", "2")]⟩
      ≠ GenerateLayout (Runtime.reversed "")
        ⟨"demo", "/srv", "", "", "", [⟨"main", false, "", [⟨false, ["ls"], "", ""⟩]⟩],
          [("A", "1"), ("B", "2")]⟩ := by
  decide

/-- C4 (amended): two runs with the same `SHELL` produce byte-identical output for every
project whose environment map has at most one entry or none of whose panes has a command,
whatever the map iteration orders of the two runs. -/
theorem C4_deterministic_without_map_order (rt1 rt2 : Runtime) (project : Project)
    (hshell : rt1.SHELL = rt2.SHELL)
    (h : project.Env.length ≤ 1 ∨
      ∀ tab ∈ project.Tabs, ∀ pane ∈ tab.Panes, pane.Commands = []) :
    GenerateLayout rt1 project = GenerateLayout rt2 project := by
  rw [GenerateLayout_eq, GenerateLayout_eq,
    tabBodies_congr rt1 rt2 hshell project.Root project.Env project.Tabs 0 h]

/-- C4 (amended) at an input: one environment entry, iterated by two different runtimes. -/
theorem C4_deterministic_without_map_order_witness :
    (Runtime.inOrder "").SHELL = (Runtime.reversed "").SHELL ∧
    ((([("A", "1")] : EnvMap).length ≤ 1) ∨
      ∀ tab ∈ [(⟨"main", false, "", [⟨false, ["ls"], "", ""⟩]⟩ : Tab)],
        ∀ pane ∈ tab.Panes, pane.Commands = []) ∧
    GenerateLayout (Runtime.inOrder "")
        ⟨"demo", "/srv", "", "", "", [⟨"main", false, "", [⟨false, ["ls"], "", ""⟩]⟩],
          [("A", "1")]⟩
      = GenerateLayout (Runtime.reversed "")
        ⟨"demo", "/srv", "", "", "", [⟨"main", false, "", [⟨false, ["ls"], "", ""⟩]⟩],
          [("A", "1")]⟩ :=
  ⟨rfl, Or.inl (by decide),
    C4_deterministic_without_map_order (Runtime.inOrder "") (Runtime.reversed "")
      ⟨"demo", "/srv", "", "", "", [⟨"main", false, "", [⟨false, ["ls"], "", ""⟩]⟩],
        [("A", "1")]⟩ rfl (Or.inl (by decide))⟩

theorem focusedTabIndexFrom_spec :
    ∀ (tabs : List Tab) (i : Nat),
      (∃ j tab, tabs[j]? = some tab ∧ tab.Focus = true ∧ focusedTabIndexFrom i tabs = i + j ∧
          ∀ k t, k < j → tabs[k]? = some t → t.Focus = false) ∨
        (focusedTabIndexFrom i tabs = 0 ∧ ∀ t ∈ tabs, t.Focus = false)
  | [], i => Or.inr ⟨rfl, by simp⟩
  | tab :: tabs, i => by
    by_cases hf : tab.Focus = true
    · refine Or.inl ⟨0, tab, by simp, hf, by simp [focusedTabIndexFrom, hf], ?_⟩
      intro k t hk
      omega
    · have hff : tab.Focus = false := by simpa using hf
      rcases focusedTabIndexFrom_spec tabs (i + 1) with ⟨j, t, hj, ht, hidx, hbefore⟩ | ⟨h0, hall⟩
      · refine Or.inl ⟨j + 1, t, by simpa using hj, ht, ?_, ?_⟩
        · simp only [focusedTabIndexFrom, hff, Bool.false_eq_true, if_false, hidx]
          omega
        · intro k t2 hk hk2
          cases k with
          | zero =>
            simp only [List.getElem?_cons_zero, Option.some.injEq] at hk2
            rw [← hk2]; exact hff
          | succ k =>
            exact hbefore k t2 (by omega) (by simpa using hk2)
      · refine Or.inr ⟨by simp [focusedTabIndexFrom, hff, h0], ?_⟩
        intro t ht
        rcases List.mem_cons.mp ht with rfl | ht
        · exact hff
        · exact hall t ht

theorem tabBodies_length (rt : Runtime) (rootDir : String) (envVars : EnvMap) :
    ∀ (tabs : List Tab) (call : Nat), (tabBodies rt rootDir envVars call tabs).length = tabs.length
  | [], _ => rfl
  | tab :: tabs, call => by
    simp [tabBodies, tabBodies_length rt rootDir envVars tabs]

/-- C5: for a project with at least one tab, the layout consists of the session line, the
scaffold, one block per tab in declaration order and the closing brace; the block of the tab
at index `i` opens with `    tab name="<name>" cwd="<project root>"`, then ` focus=true`
exactly when `i` is the focused index `f`, then ` {`.  The focused index `f` is a valid tab
index: no tab before `f` has its focus flag set, and either the tab at `f` has it set or `f = 0`
and no tab has it set. -/
theorem C5_tab_headers (rt : Runtime) (project : Project) (hne : project.Tabs ≠ []) :
    focusedTabIndexFrom 0 project.Tabs < project.Tabs.length ∧
    (∀ k t, k < focusedTabIndexFrom 0 project.Tabs → project.Tabs[k]? = some t →
      t.Focus = false) ∧
    ((∃ tab, project.Tabs[focusedTabIndexFrom 0 project.Tabs]? = some tab ∧ tab.Focus = true) ∨
      (focusedTabIndexFrom 0 project.Tabs = 0 ∧ ∀ t ∈ project.Tabs, t.Focus = false)) ∧
    (tabBodies rt project.Root project.Env 0 project.Tabs).length = project.Tabs.length ∧
    GenerateLayout rt project
      = some (sessionLine project ++ scaffoldText project.DefaultLayout
          ++ concatText (List.zipWith
              (fun (it : Nat × Tab) (body : String) =>
                "    tab name=\"" ++ it.2.Name ++ "\" cwd=\"" ++ project.Root ++ "\""
                  ++ (if it.1 = focusedTabIndexFrom 0 project.Tabs then " focus=true" else "")
                  ++ " \x7b\n" ++ body ++ "    \x7d\n")
              project.Tabs.enum (tabBodies rt project.Root project.Env 0 project.Tabs))
          ++ "\x7d\n") := by
  refine ⟨?_, ?_, ?_, tabBodies_length _ _ _ _ _, GenerateLayout_eq rt project⟩
  · rcases focusedTabIndexFrom_spec project.Tabs 0 with ⟨j, t, hj, _, hidx, _⟩ | ⟨h0, _⟩
    · rw [hidx, Nat.zero_add]
      by_contra hlt
      rw [List.getElem?_eq_none (by omega)] at hj
      exact Option.noConfusion hj
    · rw [h0]; exact List.length_pos.mpr hne
  · rcases focusedTabIndexFrom_spec project.Tabs 0 with ⟨j, t, _, _, hidx, hbefore⟩ | ⟨h0, hall⟩
    · rw [hidx, Nat.zero_add]; exact hbefore
    · intro k t hk
      rw [h0] at hk
      omega
  · rcases focusedTabIndexFrom_spec project.Tabs 0 with ⟨j, t, hj, ht, hidx, _⟩ | ⟨h0, hall⟩
    · rw [hidx, Nat.zero_add]; exact Or.inl ⟨t, hj, ht⟩
    · exact Or.inr ⟨h0, hall⟩

set_option maxRecDepth 100000 in
/-- C5 at an input: three tabs of which the second and the third have the focus flag; only
the second is marked. -/
theorem C5_tab_headers_witness :
    ([⟨"a", false, "", []⟩, ⟨"b", true, "x", []⟩, ⟨"c", true, "tiled", []⟩] : List Tab) ≠ [] ∧
    GenerateLayout (Runtime.inOrder "")
        ⟨"demo", "/srv", "", "", "other",
          [⟨"a", false, "", []⟩, ⟨"b", true, "x", []⟩, ⟨"c", true, "tiled", []⟩], []⟩
      = some "session_name \"demo\"\n\nlayout \x7b\n    // Extending from other layout\n    tab name=\"a\" cwd=\"/srv\" \x7b\n    \x7d\n    tab name=\"b\" cwd=\"/srv\" focus=true \x7b\n    \x7d\n    tab name=\"c\" cwd=\"/srv\" \x7b\n    \x7d\n\x7d\n" :=
  ⟨by decide,
    (C5_tab_headers (Runtime.inOrder "")
      ⟨"demo", "/srv", "", "", "other",
        [⟨"a", false, "", []⟩, ⟨"b", true, "x", []⟩, ⟨"c", true, "tiled", []⟩], []⟩
      (by decide)).2.2.2.2.trans (by decide)⟩

/-- C6: in manual mode a list of panes `pane0 :: rest` is written as the leaf of `pane0`
followed, at the same indentation, by one container per pane of `rest` in declaration order;
every container holds exactly the leaf of its pane and nothing else, so no container lies
inside another.  (The attributes of a container depend on its pane only.) -/
theorem C6_manual_chain (rt : Runtime) (st : Builder) (pane0 : Pane) (rest : List Pane)
    (root : String) (env : EnvMap) (indent : String) :
    ∃ (direction : Pane → String) (size : Pane → Option String),
      generatePanes rt st (pane0 :: rest) root env indent
        = some ⟨st.buf ++ Node.renderAll rt root env indent
            (.leaf pane0 st.calls ::
              (rest.enumFrom (st.calls + 1)).map
                (fun ip => .split (direction ip.2) (size ip.2) [.leaf ip.2 ip.1])),
            st.calls + (rest.length + 1)⟩ :=
  ⟨fun p => if p.Split = "vertical" then "vertical" else "horizontal",
    fun p => if p.Size = "" then none else some (p.Size ++ "%"),
    generatePanes_eq rt st (pane0 :: rest) root env indent⟩

/-- C7: in manual mode the container of every pane after the first has `split_direction`
`vertical` when the pane's split field is exactly `vertical` and `horizontal` otherwise, and
it has a size attribute exactly when the pane's size field is non-empty, which is then
`size="<size>%"`; a pane with neither field gets `pane split_direction="horizontal" {`. -/
theorem C7_manual_container_attributes (rt : Runtime) (st : Builder) (pane0 : Pane)
    (rest : List Pane) (root : String) (env : EnvMap) (indent : String) :
    generatePanes rt st (pane0 :: rest) root env indent
      = some ⟨st.buf ++ (Node.leaf pane0 st.calls).render rt root env indent
          ++ concatText ((rest.enumFrom (st.calls + 1)).map (fun ip =>
              indent ++ "pane split_direction=\""
                ++ (if ip.2.Split = "vertical" then "vertical" else "horizontal") ++ "\""
                ++ (if ip.2.Size = "" then "" else " size=\"" ++ ip.2.Size ++ "%\"")
                ++ " \x7b\n"
                ++ (Node.leaf ip.2 ip.1).render rt root env (indent ++ "    ")
                ++ indent ++ "\x7d\n")),
          st.calls + (rest.length + 1)⟩ ∧
    (∀ pane : Pane, pane.Split = "" → pane.Size = "" →
      generatePanes rt st [pane0, pane] root env indent
        = some ⟨st.buf ++ (Node.leaf pane0 st.calls).render rt root env indent
            ++ (indent ++ "pane split_direction=\"horizontal\" \x7b\n"
              ++ (Node.leaf pane (st.calls + 1)).render rt root env (indent ++ "    ")
              ++ indent ++ "\x7d\n"),
            st.calls + 2⟩) := by
  constructor
  · rw [generatePanes_eq, chainNodes, Node.renderAll, renderAll_eq_concatText, List.map_map]
    have hfun : (Node.render rt root env indent ∘ fun ip : Nat × Pane =>
          manualContainer ip.2 ip.1)
        = (fun ip : Nat × Pane =>
            indent ++ "pane split_direction=\""
              ++ (if ip.2.Split = "vertical" then "vertical" else "horizontal") ++ "\""
              ++ (if ip.2.Size = "" then "" else " size=\"" ++ ip.2.Size ++ "%\"")
              ++ " \x7b\n"
              ++ (Node.leaf ip.2 ip.1).render rt root env (indent ++ "    ")
              ++ indent ++ "\x7d\n") := by
      funext ip
      simp only [Function.comp, manualContainer, Node.render, Node.renderAll]
      by_cases h1 : ip.2.Split = "vertical" <;> by_cases h2 : ip.2.Size = "" <;>
        simp only [h1, h2, if_true, if_false] <;> simp [String.ext_iff]
    rw [hfun]
    simp [String.append_assoc]
  · intro pane h1 h2
    have hne : ¬ (("" : String) = "vertical") := by decide
    rw [generatePanes_eq]
    simp only [chainNodes, List.enumFrom, List.map, Node.renderAll, manualContainer, Node.render,
      h1, h2, hne, if_true, if_false, List.length_cons, List.length_nil]
    simp [String.ext_iff]

set_option maxRecDepth 100000 in
/-- C7 at an input: a second pane without split and size fields, a third pane with split
`vertical` and size `50`. -/
theorem C7_manual_container_attributes_witness :
    (⟨false, [], "", ""⟩ : Pane).Split = "" ∧ (⟨false, [], "", ""⟩ : Pane).Size = "" ∧
    generatePanes (Runtime.inOrder "") ⟨"", 0⟩
        [⟨true, [], "", ""⟩, ⟨false, [], "", ""⟩] "/srv" [] ""
      = some ⟨"pane focus=true \x7b\n    command \"sh\"\n    args \"-c\" \"cd '/srv'; exec /bin/bash\"\n\x7d\npane split_direction=\"horizontal\" \x7b\n    pane \x7b\n        command \"sh\"\n        args \"-c\" \"cd '/srv'; exec /bin/bash\"\n    \x7d\n\x7d\n", 2⟩ :=
  ⟨rfl, rfl,
    ((C7_manual_container_attributes (Runtime.inOrder "") ⟨"", 0⟩ ⟨true, [], "", ""⟩ []
      "/srv" [] "").2 ⟨false, [], "", ""⟩ rfl rfl).trans (by decide)⟩

/-- C8: under `even-horizontal` (respectively `even-vertical`) a list of `N` panes
`pane0 :: rest` is written as the leaf of `pane0` followed by one container per pane of `rest`,
each with `split_direction` `horizontal` (respectively `vertical`), the size attribute
`100 / N` in decimal followed by `%`, and the leaf of its pane as only child; the leaves of
the tree are the `N` panes in declaration order.  For `N = 3` the two sizes are `33%`. -/
theorem C8_even_patterns (rt : Runtime) (st : Builder) (pane0 : Pane) (rest : List Pane)
    (root : String) (env : EnvMap) (indent : String) :
    (generatePanesWithLayout rt st "even-horizontal" (pane0 :: rest) root env indent
      = some ⟨st.buf ++ Node.renderAll rt root env indent
          (.leaf pane0 st.calls ::
            (rest.enumFrom (st.calls + 1)).map (fun ip =>
              .split "horizontal" (some (toString (100 / (rest.length + 1)) ++ "%"))
                [.leaf ip.2 ip.1])),
          st.calls + (rest.length + 1)⟩) ∧
    (generatePanesWithLayout rt st "even-vertical" (pane0 :: rest) root env indent
      = some ⟨st.buf ++ Node.renderAll rt root env indent
          (.leaf pane0 st.calls ::
            (rest.enumFrom (st.calls + 1)).map (fun ip =>
              .split "vertical" (some (toString (100 / (rest.length + 1)) ++ "%"))
                [.leaf ip.2 ip.1])),
          st.calls + (rest.length + 1)⟩) ∧
    (∀ direction : String,
      Node.leavesAll (.leaf pane0 st.calls ::
          (rest.enumFrom (st.calls + 1)).map (fun ip =>
            Node.split direction (some (toString (100 / (rest.length + 1)) ++ "%"))
              [.leaf ip.2 ip.1]))
        = (pane0 :: rest).enumFrom st.calls) ∧
    (rest.length = 2 → toString (100 / (rest.length + 1)) ++ "%" = "33%") := by
  refine ⟨?_, ?_, ?_, ?_⟩
  · exact fuel_evenHorizontal 1 rt st (pane0 :: rest) root env indent
  · exact fuel_evenVertical 1 rt st (pane0 :: rest) root env indent
  · intro direction
    exact leavesAll_chainNodes
      (fun p k => .split direction (some (toString (100 / (rest.length + 1)) ++ "%"))
        [.leaf p k])
      (fun p k => by simp [Node.leaves, Node.leavesAll]) st.calls (pane0 :: rest)
  · intro h
    rw [h]
    decide

set_option maxRecDepth 100000 in
/-- C8 at an input: three panes under `even-horizontal`, two containers sized 33%. -/
theorem C8_even_patterns_witness :
    ([⟨false, [], "", ""⟩, ⟨false, [], "", ""⟩] : List Pane).length = 2 ∧
    generatePanesWithLayout (Runtime.inOrder "") ⟨"", 0⟩ "even-horizontal"
        [⟨false, [], "", ""⟩, ⟨false, [], "", ""⟩, ⟨false, [], "", ""⟩] "/srv" [] ""
      = some ⟨"pane \x7b\n    command \"sh\"\n    args \"-c\" \"cd '/srv'; exec /bin/bash\"\n\x7d\npane split_direction=\"horizontal\" size=\"33%\" \x7b\n    pane \x7b\n        command \"sh\"\n        args \"-c\" \"cd '/srv'; exec /bin/bash\"\n    \x7d\n\x7d\npane split_direction=\"horizontal\" size=\"33%\" \x7b\n    pane \x7b\n        command \"sh\"\n        args \"-c\" \"cd '/srv'; exec /bin/bash\"\n    \x7d\n\x7d\n", 3⟩ :=
  ⟨rfl,
    (C8_even_patterns (Runtime.inOrder "") ⟨"", 0⟩ ⟨false, [], "", ""⟩
      [⟨false, [], "", ""⟩, ⟨false, [], "", ""⟩] "/srv" [] "").1.trans (by decide)⟩

/-- C9: under `main-vertical` a list of `N ≥ 2` panes `pane0 :: pane1 :: rest` is written as
the leaf of `pane0` followed by exactly one container with `split_direction` `vertical` and
size `30%`; the container holds the leaf of `pane1` and then, one level deeper, one container
per pane of `rest` in order, each with `split_direction` `horizontal`, the size `100 / (N - 1)`
percent and the leaf of its pane as only child.  For `N = 2` the 30% container holds the leaf
of `pane1` only. -/
theorem C9_main_vertical (rt : Runtime) (st : Builder) (pane0 pane1 : Pane) (rest : List Pane)
    (root : String) (env : EnvMap) (indent : String) :
    (generatePanesWithLayout rt st "main-vertical" (pane0 :: pane1 :: rest) root env indent
      = some ⟨st.buf ++ Node.renderAll rt root env indent
          [.leaf pane0 st.calls,
           .split "vertical" (some "30%")
             (.leaf pane1 (st.calls + 1) ::
               (rest.enumFrom (st.calls + 2)).map (fun ip =>
                 .split "horizontal"
                   (some (toString (100 / ((pane0 :: pane1 :: rest).length - 1)) ++ "%"))
                   [.leaf ip.2 ip.1]))],
          st.calls + (pane0 :: pane1 :: rest).length⟩) ∧
    (generatePanesWithLayout rt st "main-vertical" [pane0, pane1] root env indent
      = some ⟨st.buf ++ Node.renderAll rt root env indent
          [.leaf pane0 st.calls, .split "vertical" (some "30%") [.leaf pane1 (st.calls + 1)]],
          st.calls + 2⟩) :=
  ⟨fuel_mainVertical 1 rt st (pane0 :: pane1 :: rest) root env indent,
    fuel_mainVertical 1 rt st [pane0, pane1] root env indent⟩

theorem swapDirectionAll_map (f : Nat × Pane → Node) :
    ∀ l : List (Nat × Pane),
      Node.swapDirectionAll (l.map f) = l.map (fun ip => (f ip).swapDirection)
  | [] => rfl
  | ip :: l => by
    simp [Node.swapDirectionAll, swapDirectionAll_map f l]

theorem swapDirectionAll_mainNodes (call : Nat) (panes : List Pane) :
    Node.swapDirectionAll (mainNodes "vertical" "horizontal" call panes)
      = mainNodes "horizontal" "vertical" call panes := by
  have h1 : swapOrientation "vertical" = "horizontal" := by decide
  have h2 : swapOrientation "horizontal" = "vertical" := by decide
  match panes with
  | [] => rfl
  | [p0] => rfl
  | p0 :: p1 :: rest =>
    simp [mainNodes, Node.swapDirectionAll, Node.swapDirection, swapDirectionAll_map,
      evenContainer, h1, h2]

/-- C10: for every pane list the text written under `main-horizontal` is the text written
under `main-vertical` with the orientation of every container swapped (the outer container
`horizontal` instead of `vertical`, the inner containers `vertical` instead of `horizontal`):
both are serialisations of the same tree up to the swap, with the same sizes, leaves, focus
flags, commands and indentation. -/
theorem C10_main_horizontal_swaps_main_vertical (rt : Runtime) (st : Builder)
    (panes : List Pane) (root : String) (env : EnvMap) (indent : String) :
    generatePanesWithLayout rt st "main-vertical" panes root env indent
      = some ⟨st.buf ++ Node.renderAll rt root env indent
          (mainNodes "vertical" "horizontal" st.calls panes), st.calls + panes.length⟩ ∧
    generatePanesWithLayout rt st "main-horizontal" panes root env indent
      = some ⟨st.buf ++ Node.renderAll rt root env indent
          (Node.swapDirectionAll (mainNodes "vertical" "horizontal" st.calls panes)),
          st.calls + panes.length⟩ := by
  rw [swapDirectionAll_mainNodes]
  exact ⟨fuel_mainVertical 1 rt st panes root env indent,
    fuel_mainHorizontal 1 rt st panes root env indent⟩

/-- C11: under `tiled` a list of exactly four panes is written as the leaf of pane 0, a
`vertical` 50% container with the leaf of pane 1, and a `horizontal` 50% container holding the
leaf of pane 2 and a nested `vertical` 50% container with the leaf of pane 3.  The leaves of
this tree are the four panes, each once, in declaration order, and they lie inside 0, 1, 1 and
2 containers: the leaf of pane 3 is exactly two containers deep. -/
theorem C11_tiled_four (rt : Runtime) (st : Builder) (pane0 pane1 pane2 pane3 : Pane)
    (root : String) (env : EnvMap) (indent : String) :
    generatePanesWithLayout rt st "tiled" [pane0, pane1, pane2, pane3] root env indent
      = some ⟨st.buf ++ Node.renderAll rt root env indent
          [.leaf pane0 st.calls,
           .split "vertical" (some "50%") [.leaf pane1 (st.calls + 1)],
           .split "horizontal" (some "50%")
             [.leaf pane2 (st.calls + 2),
              .split "vertical" (some "50%") [.leaf pane3 (st.calls + 3)]]],
          st.calls + 4⟩ ∧
    Node.leavesAll
        [.leaf pane0 st.calls,
         .split "vertical" (some "50%") [.leaf pane1 (st.calls + 1)],
         .split "horizontal" (some "50%")
           [.leaf pane2 (st.calls + 2),
            .split "vertical" (some "50%") [.leaf pane3 (st.calls + 3)]]]
      = [(st.calls, pane0), (st.calls + 1, pane1), (st.calls + 2, pane2),
          (st.calls + 3, pane3)] ∧
    Node.leafDepthsAll 0
        [.leaf pane0 st.calls,
         .split "vertical" (some "50%") [.leaf pane1 (st.calls + 1)],
         .split "horizontal" (some "50%")
           [.leaf pane2 (st.calls + 2),
            .split "vertical" (some "50%") [.leaf pane3 (st.calls + 3)]]]
      = [0, 1, 1, 2] :=
  ⟨fuel_tiled 0 rt st [pane0, pane1, pane2, pane3] root env indent, rfl, rfl⟩

/-- C12: under `tiled` a list of exactly three panes is written as the leaf of pane 0
followed by one container with `split_direction` `vertical` and size `50%` that holds the leaf
of pane 1 and then a nested container with `split_direction` `horizontal` and size `50%`
around the leaf of pane 2. -/
theorem C12_tiled_three (rt : Runtime) (st : Builder) (pane0 pane1 pane2 : Pane)
    (root : String) (env : EnvMap) (indent : String) :
    generatePanesWithLayout rt st "tiled" [pane0, pane1, pane2] root env indent
      = some ⟨st.buf ++ Node.renderAll rt root env indent
          [.leaf pane0 st.calls,
           .split "vertical" (some "50%")
             [.leaf pane1 (st.calls + 1),
              .split "horizontal" (some "50%") [.leaf pane2 (st.calls + 2)]]],
          st.calls + 3⟩ :=
  fuel_tiled 0 rt st [pane0, pane1, pane2] root env indent

theorem tiledNodes_of_length_gt (call : Nat) (panes : List Pane) (h : panes.length > 4) :
    tiledNodes call panes = chainNodes (evenContainer "horizontal" panes.length) call panes := by
  match panes, h with
  | p0 :: p1 :: p2 :: p3 :: p4 :: rest, _ =>
    have hn : ¬ ((p0 :: p1 :: p2 :: p3 :: p4 :: rest).length ≤ 2) := by simp
    simp only [tiledNodes, hn, if_false]

theorem tiledNodes_of_length_le (call : Nat) (panes : List Pane) (h : panes.length ≤ 2) :
    tiledNodes call panes = chainNodes (evenContainer "vertical" panes.length) call panes := by
  match panes, h with
  | [], _ => rfl
  | [p0], _ => rfl
  | [p0, p1], _ => rfl

/-- C13: for a pane list of more than four panes the result of `tiled` is identical to the
result of `even-horizontal` on the same arguments, and for at most two panes it is identical
to the result of `even-vertical`. -/
theorem C13_tiled_fallbacks (rt : Runtime) (st : Builder) (panes : List Pane)
    (root : String) (env : EnvMap) (indent : String) :
    (panes.length > 4 →
      generatePanesWithLayout rt st "tiled" panes root env indent
        = generatePanesWithLayout rt st "even-horizontal" panes root env indent) ∧
    (panes.length ≤ 2 →
      generatePanesWithLayout rt st "tiled" panes root env indent
        = generatePanesWithLayout rt st "even-vertical" panes root env indent) := by
  constructor
  · intro h
    rw [generatePanesWithLayout, generatePanesWithLayout, fuel_tiled, fuel_evenHorizontal,
      tiledNodes_of_length_gt _ _ h]
  · intro h
    rw [generatePanesWithLayout, generatePanesWithLayout, fuel_tiled, fuel_evenVertical,
      tiledNodes_of_length_le _ _ h]

set_option maxRecDepth 100000 in
/-- C13 at inputs: five panes under `tiled` and `even-horizontal`, two panes under `tiled` and
`even-vertical`. -/
theorem C13_tiled_fallbacks_witness :
    ([⟨false, [], "", ""⟩, ⟨true, ["ls"], "", ""⟩, ⟨false, [], "", ""⟩, ⟨false, [], "", ""⟩,
        ⟨false, [], "", ""⟩] : List Pane).length > 4 ∧
    generatePanesWithLayout (Runtime.inOrder "") ⟨"", 0⟩ "tiled"
        [⟨false, [], "", ""⟩, ⟨true, ["ls"], "", ""⟩, ⟨false, [], "", ""⟩, ⟨false, [], "", ""⟩,
          ⟨false, [], "", ""⟩] "/srv" [] ""
      = generatePanesWithLayout (Runtime.inOrder "") ⟨"", 0⟩ "even-horizontal"
        [⟨false, [], "", ""⟩, ⟨true, ["ls"], "", ""⟩, ⟨false, [], "", ""⟩, ⟨false, [], "", ""⟩,
          ⟨false, [], "", ""⟩] "/srv" [] "" ∧
    ([⟨false, [], "", ""⟩, ⟨true, ["ls"], "", ""⟩] : List Pane).length ≤ 2 ∧
    generatePanesWithLayout (Runtime.inOrder "") ⟨"", 0⟩ "tiled"
        [⟨false, [], "", ""⟩, ⟨true, ["ls"], "", ""⟩] "/srv" [] ""
      = generatePanesWithLayout (Runtime.inOrder "") ⟨"", 0⟩ "even-vertical"
        [⟨false, [], "", ""⟩, ⟨true, ["ls"], "", ""⟩] "/srv" [] "" :=
  ⟨by decide,
    (C13_tiled_fallbacks (Runtime.inOrder "") ⟨"", 0⟩
      [⟨false, [], "", ""⟩, ⟨true, ["ls"], "", ""⟩, ⟨false, [], "", ""⟩, ⟨false, [], "", ""⟩,
        ⟨false, [], "", ""⟩] "/srv" [] "").1 (by decide),
    by decide,
    (C13_tiled_fallbacks (Runtime.inOrder "") ⟨"", 0⟩
      [⟨false, [], "", ""⟩, ⟨true, ["ls"], "", ""⟩] "/srv" [] "").2 (by decide)⟩

theorem patternNodes_unrecognised (layoutType : String) (call : Nat) (panes : List Pane)
    (h : layoutType ∉ recognisedPatterns) :
    patternNodes layoutType call panes = chainNodes manualContainer call panes := by
  simp only [recognisedPatterns, List.mem_cons, List.mem_singleton, List.not_mem_nil, or_false,
    not_or] at h
  obtain ⟨h1, h2, h3, h4, h5⟩ := h
  simp [patternNodes, h1, h2, h3, h4, h5]

theorem omitUnrecognised_nodes (tab : Tab) (call : Nat) (panes : List Pane) :
    patternNodes tab.omitUnrecognised.Layout call panes
      = patternNodes tab.Layout call panes := by
  unfold Tab.omitUnrecognised
  split
  · rfl
  · rename_i h
    simp only [patternNodes_empty, patternNodes_unrecognised _ _ _ h]

theorem omitUnrecognised_panes (tab : Tab) : tab.omitUnrecognised.Panes = tab.Panes := by
  unfold Tab.omitUnrecognised
  split <;> rfl

theorem omitUnrecognised_name (tab : Tab) : tab.omitUnrecognised.Name = tab.Name := by
  unfold Tab.omitUnrecognised
  split <;> rfl

theorem omitUnrecognised_focus (tab : Tab) : tab.omitUnrecognised.Focus = tab.Focus := by
  unfold Tab.omitUnrecognised
  split <;> rfl

theorem focusedTabIndexFrom_omit :
    ∀ (tabs : List Tab) (i : Nat),
      focusedTabIndexFrom i (tabs.map Tab.omitUnrecognised) = focusedTabIndexFrom i tabs
  | [], _ => rfl
  | tab :: tabs, i => by
    simp only [List.map_cons, focusedTabIndexFrom, omitUnrecognised_focus,
      focusedTabIndexFrom_omit tabs (i + 1)]

theorem tabBodies_omit (rt : Runtime) (rootDir : String) (envVars : EnvMap) :
    ∀ (tabs : List Tab) (call : Nat),
      tabBodies rt rootDir envVars call (tabs.map Tab.omitUnrecognised)
        = tabBodies rt rootDir envVars call tabs
  | [], _ => rfl
  | tab :: tabs, call => by
    simp only [List.map_cons, tabBodies, omitUnrecognised_nodes, omitUnrecognised_panes,
      tabBodies_omit rt rootDir envVars tabs]

theorem zipWith_header_omit (g : Nat → String → String → String) :
    ∀ (tabs : List Tab) (bodies : List String) (i : Nat),
      List.zipWith (fun (it : Nat × Tab) (body : String) => g it.1 it.2.Name body)
          ((tabs.map Tab.omitUnrecognised).enumFrom i) bodies
        = List.zipWith (fun (it : Nat × Tab) (body : String) => g it.1 it.2.Name body)
          (tabs.enumFrom i) bodies
  | [], _, _ => rfl
  | tab :: tabs, [], i => rfl
  | tab :: tabs, b :: bodies, i => by
    simp only [List.map_cons, List.enumFrom_cons, List.zipWith_cons_cons,
      omitUnrecognised_name, zipWith_header_omit g tabs bodies (i + 1)]

theorem GenerateLayout_eq_tabBlocks (rt : Runtime) (project : Project) :
    GenerateLayout rt project
      = some (sessionLine project ++ scaffoldText project.DefaultLayout
          ++ tabBlocks rt project.Root project.Env project.Tabs ++ "\x7d\n") :=
  GenerateLayout_eq rt project

/-- C14: for every pattern name that is not one of the five recognised names and every pane
list, `generatePanesWithLayout` gives the result of the manual-mode `generatePanes`; hence
the layout of a project equals the layout of the same project with the pattern field omitted
from every tab whose pattern is not recognised. -/
theorem C14_unknown_pattern_is_manual (rt : Runtime) (st : Builder) (layoutType : String)
    (panes : List Pane) (root : String) (env : EnvMap) (indent : String) (project : Project) :
    (layoutType ∉ recognisedPatterns →
      generatePanesWithLayout rt st layoutType panes root env indent
        = generatePanes rt st panes root env indent) ∧
    GenerateLayout rt project
      = GenerateLayout rt { project with Tabs := project.Tabs.map Tab.omitUnrecognised } := by
  constructor
  · intro h
    rw [generatePanesWithLayout_eq, generatePanes_eq, patternNodes_unrecognised _ _ _ h]
  · rw [GenerateLayout_eq_tabBlocks, GenerateLayout_eq_tabBlocks]
    simp only [sessionLine, tabBlocks, List.enum, focusedTabIndexFrom_omit, tabBodies_omit]
    rw [zipWith_header_omit (fun i name body =>
      "    tab name=\"" ++ name ++ "\" cwd=\"" ++ project.Root ++ "\""
        ++ (if i = focusedTabIndexFrom 0 project.Tabs then " focus=true" else "")
        ++ " \x7b\n" ++ body ++ "    \x7d\n")]

set_option maxRecDepth 100000 in
/-- C14 at inputs: the names `spiral` and `Tiled` are not recognised; three panes under
`spiral` are written as in manual mode. -/
theorem C14_unknown_pattern_is_manual_witness :
    "spiral" ∉ recognisedPatterns ∧ "Tiled" ∉ recognisedPatterns ∧
    generatePanesWithLayout (Runtime.inOrder "") ⟨"", 0⟩ "spiral"
        [⟨false, [], "", ""⟩, ⟨true, ["ls"], "40", "vertical"⟩, ⟨false, [], "", ""⟩] "/srv" [] ""
      = generatePanes (Runtime.inOrder "") ⟨"", 0⟩
        [⟨false, [], "", ""⟩, ⟨true, ["ls"], "40", "vertical"⟩, ⟨false, [], "", ""⟩] "/srv" [] "" :=
  ⟨by decide, by decide,
    (C14_unknown_pattern_is_manual (Runtime.inOrder "") ⟨"", 0⟩ "spiral"
      [⟨false, [], "", ""⟩, ⟨true, ["ls"], "40", "vertical"⟩, ⟨false, [], "", ""⟩] "/srv" [] ""
      ⟨"", "", "", "", "", [], []⟩).1 (by decide)⟩

/-! ### Pattern mode and the panes' own geometry -/

theorem writePaneCommand_withoutGeometry (rt : Runtime) (st : Builder) (pane : Pane)
    (rootDir : String) (envVars : EnvMap) (indent : String) :
    writePaneCommand rt st pane.withoutGeometry rootDir envVars indent
      = writePaneCommand rt st pane rootDir envVars indent := rfl

mutual
theorem render_mapPanes_withoutGeometry (rt : Runtime) (rootDir : String) (envVars : EnvMap) :
    ∀ (node : Node) (indent : String),
      (node.mapPanes Pane.withoutGeometry).render rt rootDir envVars indent
        = node.render rt rootDir envVars indent
  | .leaf pane call, indent => rfl
  | .split direction size children, indent => by
    simp only [Node.mapPanes, Node.render]
    rw [renderAll_mapPanes_withoutGeometry rt rootDir envVars children]
theorem renderAll_mapPanes_withoutGeometry (rt : Runtime) (rootDir : String)
    (envVars : EnvMap) :
    ∀ (nodes : List Node) (indent : String),
      Node.renderAll rt rootDir envVars indent (Node.mapPanesAll Pane.withoutGeometry nodes)
        = Node.renderAll rt rootDir envVars indent nodes
  | [], _ => rfl
  | n :: ns, indent => by
    simp only [Node.mapPanesAll, Node.renderAll]
    rw [render_mapPanes_withoutGeometry rt rootDir envVars n,
      renderAll_mapPanes_withoutGeometry rt rootDir envVars ns]
end

theorem mapPanesAll_map_wrap (f : Pane → Pane) (wrap : Pane → Nat → Node)
    (hwrap : ∀ p k, (wrap p k).mapPanes f = wrap (f p) k) :
    ∀ (l : List Pane) (call : Nat),
      Node.mapPanesAll f ((l.enumFrom call).map (fun ip => wrap ip.2 ip.1))
        = ((l.map f).enumFrom call).map (fun ip => wrap ip.2 ip.1)
  | [], _ => rfl
  | p :: l, call => by
    simp only [List.enumFrom_cons, List.map_cons, Node.mapPanesAll, hwrap,
      mapPanesAll_map_wrap f wrap hwrap l (call + 1)]

theorem mapPanesAll_chainNodes (f : Pane → Pane) (wrap : Pane → Nat → Node)
    (hwrap : ∀ p k, (wrap p k).mapPanes f = wrap (f p) k) (call : Nat) (panes : List Pane) :
    Node.mapPanesAll f (chainNodes wrap call panes) = chainNodes wrap call (panes.map f) := by
  cases panes with
  | nil => rfl
  | cons p0 rest =>
    simp only [chainNodes, List.map_cons, Node.mapPanesAll, Node.mapPanes,
      mapPanesAll_map_wrap f wrap hwrap]

theorem mapPanes_evenContainer (f : Pane → Pane) (dir : String) (n : Nat) (p : Pane) (k : Nat) :
    (evenContainer dir n p k).mapPanes f = evenContainer dir n (f p) k := rfl

theorem mapPanesAll_mainNodes (f : Pane → Pane) (outer inner : String) (call : Nat)
    (panes : List Pane) :
    Node.mapPanesAll f (mainNodes outer inner call panes)
      = mainNodes outer inner call (panes.map f) := by
  match panes with
  | [] => rfl
  | [p0] => rfl
  | p0 :: p1 :: rest =>
    simp only [mainNodes, List.map_cons, Node.mapPanesAll, Node.mapPanes, List.length_map,
      mapPanesAll_map_wrap f _ (mapPanes_evenContainer f inner (rest.length + 1))]

theorem mapPanesAll_tiledNodes (f : Pane → Pane) (call : Nat) (panes : List Pane) :
    Node.mapPanesAll f (tiledNodes call panes) = tiledNodes call (panes.map f) := by
  match panes with
  | [] => rfl
  | [p0] => rfl
  | [p0, p1] => rfl
  | [p0, p1, p2] => rfl
  | [p0, p1, p2, p3] => rfl
  | p0 :: p1 :: p2 :: p3 :: p4 :: rest =>
    rw [tiledNodes_of_length_gt _ _ (by simp), tiledNodes_of_length_gt _ _ (by simp),
      mapPanesAll_chainNodes f _ (mapPanes_evenContainer f _ _), List.length_map]

/-- Under a recognised pattern the prescribed tree looks at the panes only through its
leaves. -/
theorem mapPanesAll_patternNodes (f : Pane → Pane) (layoutType : String) (call : Nat)
    (panes : List Pane) (h : layoutType ∈ recognisedPatterns) :
    Node.mapPanesAll f (patternNodes layoutType call panes)
      = patternNodes layoutType call (panes.map f) := by
  simp only [recognisedPatterns, List.mem_cons, List.mem_singleton, List.not_mem_nil,
    or_false] at h
  have e1 : ¬ ("even-vertical" = "even-horizontal") := by decide
  have e2 : ¬ ("main-vertical" = "even-horizontal") := by decide
  have e3 : ¬ ("main-vertical" = "even-vertical") := by decide
  have e4 : ¬ ("main-horizontal" = "even-horizontal") := by decide
  have e5 : ¬ ("main-horizontal" = "even-vertical") := by decide
  have e6 : ¬ ("main-horizontal" = "main-vertical") := by decide
  have e7 : ¬ ("tiled" = "even-horizontal") := by decide
  have e8 : ¬ ("tiled" = "even-vertical") := by decide
  have e9 : ¬ ("tiled" = "main-vertical") := by decide
  have e10 : ¬ ("tiled" = "main-horizontal") := by decide
  rcases h with h | h | h | h | h <;> subst h
  · simp only [patternNodes, if_true, List.length_map,
      mapPanesAll_chainNodes f _ (mapPanes_evenContainer f _ _)]
  · simp only [patternNodes, e1, if_false, if_true, List.length_map,
      mapPanesAll_chainNodes f _ (mapPanes_evenContainer f _ _)]
  · simp only [patternNodes, e2, e3, if_false, if_true, mapPanesAll_mainNodes]
  · simp only [patternNodes, e4, e5, e6, if_false, if_true, mapPanesAll_mainNodes]
  · simp only [patternNodes, e7, e8, e9, e10, if_false, if_true, mapPanesAll_tiledNodes]

theorem map_withoutGeometry_eq (panes1 panes2 : List Pane)
    (h : panes1.map (fun p => (p.Focus, p.Commands)) = panes2.map (fun p => (p.Focus, p.Commands))) :
    panes1.map Pane.withoutGeometry = panes2.map Pane.withoutGeometry := by
  have hf : Pane.withoutGeometry
      = (fun fc : Bool × List String => (⟨fc.1, fc.2, "", ""⟩ : Pane))
          ∘ (fun p : Pane => (p.Focus, p.Commands)) := rfl
  rw [hf, ← List.map_map, ← List.map_map, h]

/-- C15: under each of the five recognised patterns, two pane lists of the same length whose
panes agree, position by position, in focus flag and command list give the same result,
whatever the panes' own `split` and `size` fields are. -/
theorem C15_pattern_ignores_split_size (rt : Runtime) (st : Builder) (layoutType : String)
    (panes1 panes2 : List Pane) (root : String) (env : EnvMap) (indent : String)
    (hpattern : layoutType ∈ recognisedPatterns)
    (hagree : panes1.map (fun p => (p.Focus, p.Commands))
      = panes2.map (fun p => (p.Focus, p.Commands))) :
    generatePanesWithLayout rt st layoutType panes1 root env indent
      = generatePanesWithLayout rt st layoutType panes2 root env indent := by
  have hlen : panes1.length = panes2.length := by
    simpa using congrArg List.length hagree
  rw [generatePanesWithLayout_eq, generatePanesWithLayout_eq, hlen,
    ← renderAll_mapPanes_withoutGeometry rt root env (patternNodes layoutType st.calls panes1),
    ← renderAll_mapPanes_withoutGeometry rt root env (patternNodes layoutType st.calls panes2),
    mapPanesAll_patternNodes _ _ _ _ hpattern, mapPanesAll_patternNodes _ _ _ _ hpattern,
    map_withoutGeometry_eq panes1 panes2 hagree]

/-- C15 at an input: three panes under `main-vertical`, with and without split and size
fields. -/
theorem C15_pattern_ignores_split_size_witness :
    "main-vertical" ∈ recognisedPatterns ∧
    ([⟨false, ["ls"], "10", "vertical"⟩, ⟨true, [], "x", "horizontal"⟩, ⟨false, [], "", "up"⟩] :
        List Pane).map (fun p => (p.Focus, p.Commands))
      = ([⟨false, ["ls"], "", ""⟩, ⟨true, [], "", ""⟩, ⟨false, [], "", ""⟩] :
        List Pane).map (fun p => (p.Focus, p.Commands)) ∧
    generatePanesWithLayout (Runtime.inOrder "") ⟨"", 0⟩ "main-vertical"
        [⟨false, ["ls"], "10", "vertical"⟩, ⟨true, [], "x", "horizontal"⟩, ⟨false, [], "", "up"⟩]
        "/srv" [] ""
      = generatePanesWithLayout (Runtime.inOrder "") ⟨"", 0⟩ "main-vertical"
        [⟨false, ["ls"], "", ""⟩, ⟨true, [], "", ""⟩, ⟨false, [], "", ""⟩] "/srv" [] "" :=
  ⟨by decide, by decide,
    C15_pattern_ignores_split_size (Runtime.inOrder "") ⟨"", 0⟩ "main-vertical"
      [⟨false, ["ls"], "10", "vertical"⟩, ⟨true, [], "x", "horizontal"⟩, ⟨false, [], "", "up"⟩]
      [⟨false, ["ls"], "", ""⟩, ⟨true, [], "", ""⟩, ⟨false, [], "", ""⟩] "/srv" [] ""
      (by decide) (by decide)⟩

theorem patternNodes_nil (layoutType : String) (call : Nat) :
    patternNodes layoutType call [] = [] := by
  unfold patternNodes
  repeat' split
  all_goals rfl

theorem patternNodes_singleton (layoutType : String) (call : Nat) (pane : Pane) :
    patternNodes layoutType call [pane] = [.leaf pane call] := by
  unfold patternNodes
  repeat' split
  all_goals rfl

/-- C16: for every pattern name, recognised or not, `generatePanesWithLayout` leaves the
output unchanged on an empty pane list, and on a one-element list it writes that pane as a
plain leaf, exactly as `writePaneWithCommand` does. -/
theorem C16_degenerate_pane_lists (rt : Runtime) (st : Builder) (layoutType : String)
    (pane : Pane) (root : String) (env : EnvMap) (indent : String) :
    generatePanesWithLayout rt st layoutType [] root env indent = some st ∧
    generatePanesWithLayout rt st layoutType [pane] root env indent
      = some (writePaneWithCommand rt st pane root env indent) ∧
    (writePaneWithCommand rt st pane root env indent).buf
      = st.buf ++ (indent ++ "pane" ++ (if pane.Focus then " focus=true" else "") ++ " \x7b\n"
          ++ (writePaneCommand rt ⟨"", st.calls⟩ pane root env (indent ++ "    ")).buf
          ++ indent ++ "\x7d\n") := by
  refine ⟨?_, ?_, ?_⟩
  · rw [generatePanesWithLayout_eq, patternNodes_nil]
    simp [Node.renderAll]
  · rw [generatePanesWithLayout_eq, patternNodes_singleton, writePaneWithCommand_eq]
    simp [Node.renderAll]
  · rw [writePaneWithCommand_eq]
    simp [Node.render, String.append_assoc]

/-- C17: in manual mode and under every pattern name the text written for a pane list is the
serialisation of a tree whose leaves are the panes of the list, each once and in declaration
order; the text of a leaf starts with `pane focus=true` (behind the indentation) if and only
if the focus flag of its own pane is set.  So a list without focused pane has the attribute
on no leaf and a list with several focused panes has it on each of them. -/
theorem C17_leaf_focus (rt : Runtime) (st : Builder) (layoutType : String) (panes : List Pane)
    (root : String) (env : EnvMap) (indent : String) :
    (generatePanes rt st panes root env indent
        = some ⟨st.buf ++ Node.renderAll rt root env indent
            (chainNodes manualContainer st.calls panes), st.calls + panes.length⟩ ∧
      Node.leavesAll (chainNodes manualContainer st.calls panes) = panes.enumFrom st.calls) ∧
    (generatePanesWithLayout rt st layoutType panes root env indent
        = some ⟨st.buf ++ Node.renderAll rt root env indent
            (patternNodes layoutType st.calls panes), st.calls + panes.length⟩ ∧
      Node.leavesAll (patternNodes layoutType st.calls panes) = panes.enumFrom st.calls) ∧
    (∀ (pane : Pane) (call : Nat) (ind : String),
      (ind ++ "pane focus=true").data <+: ((Node.leaf pane call).render rt root env ind).data
        ↔ pane.Focus = true) := by
  refine ⟨⟨generatePanes_eq _ _ _ _ _ _, leavesAll_chainNodes _ leaves_manualContainer _ _⟩,
    ⟨generatePanesWithLayout_eq _ _ _ _ _ _ _, leavesAll_patternNodes _ _ _⟩, ?_⟩
  intro pane call ind
  cases hf : pane.Focus <;>
    simp [Node.render, hf, List.prefix_append_right_inj, List.append_assoc]

/-- C18: the layout of every project begins with the line `session_name "<S>"` and a blank
line, where `S` is the session name of the project if that is non-empty and the name of the
project otherwise; with both empty the line is `session_name ""`. -/
theorem C18_session_name_line (rt : Runtime) (project : Project) :
    (∃ rest : String,
      GenerateLayout rt project
        = some ("session_name \""
            ++ (if project.SessionName ≠ "" then project.SessionName else project.Name)
            ++ "\"\n\n" ++ rest)) ∧
    (project.SessionName = "" → project.Name = "" →
      ∃ rest : String, GenerateLayout rt project = some ("session_name \"\"\n\n" ++ rest)) := by
  have key : ∃ rest : String,
      GenerateLayout rt project
        = some ("session_name \""
            ++ (if project.SessionName ≠ "" then project.SessionName else project.Name)
            ++ "\"\n\n" ++ rest) := by
    refine ⟨scaffoldText project.DefaultLayout
      ++ tabBlocks rt project.Root project.Env project.Tabs ++ "\x7d\n", ?_⟩
    rw [GenerateLayout_eq_tabBlocks]
    by_cases h : project.SessionName = "" <;> simp [sessionLine, h, String.append_assoc]
  refine ⟨key, ?_⟩
  intro h1 h2
  obtain ⟨rest, hrest⟩ := key
  refine ⟨rest, ?_⟩
  rw [hrest]
  simp [h1, h2]

set_option maxRecDepth 100000 in
/-- C18 at an input: a project without session name and without name and without tabs. -/
theorem C18_session_name_line_witness :
    (⟨"", "/srv", "", "", "x", [], []⟩ : Project).SessionName = "" ∧
    (⟨"", "/srv", "", "", "x", [], []⟩ : Project).Name = "" ∧
    ∃ rest : String,
      GenerateLayout (Runtime.inOrder "") ⟨"", "/srv", "", "", "x", [], []⟩
        = some ("session_name \"\"\n\n" ++ rest) :=
  ⟨rfl, rfl, (C18_session_name_line (Runtime.inOrder "") ⟨"", "/srv", "", "", "x", [], []⟩).2
    rfl rfl⟩

/-- C19: after the session line the layout has a scaffold that depends on the base template
name only, then the tab blocks and the closing brace.  For an empty name the scaffold is
`layout {` with a `default_tab_template` that lists a size-1 borderless tab-bar plugin pane,
`children` and a size-2 borderless status-bar plugin pane, in this order; for `compact` it is
`layout {`, a comment, and a `default_tab_template` that lists `children` and a size-1
borderless compact-bar plugin pane; for every other name it is `layout {` and a comment that
names the template, without `default_tab_template` and without plugin pane. -/
theorem C19_scaffold (rt : Runtime) (project : Project) :
    (project.DefaultLayout = "" →
      GenerateLayout rt project
        = some (sessionLine project
            ++ "layout \x7b\n    default_tab_template \x7b\n        pane size=1 borderless=true \x7b\n            plugin location=\"zellij:tab-bar\"\n        \x7d\n        children\n        pane size=2 borderless=true \x7b\n            plugin location=\"zellij:status-bar\"\n        \x7d\n    \x7d\n\n"
            ++ tabBlocks rt project.Root project.Env project.Tabs ++ "\x7d\n")) ∧
    (project.DefaultLayout = "compact" →
      GenerateLayout rt project
        = some (sessionLine project
            ++ "layout \x7b\n    // Extending from compact layout\n    default_tab_template \x7b\n        children\n        pane size=1 borderless=true \x7b\n            plugin location=\"zellij:compact-bar\"\n        \x7d\n    \x7d\n\n"
            ++ tabBlocks rt project.Root project.Env project.Tabs ++ "\x7d\n")) ∧
    (project.DefaultLayout ≠ "" → project.DefaultLayout ≠ "compact" →
      GenerateLayout rt project
        = some (sessionLine project
            ++ ("layout \x7b\n    // Extending from " ++ project.DefaultLayout ++ " layout\n")
            ++ tabBlocks rt project.Root project.Env project.Tabs ++ "\x7d\n")) := by
  have hc : ¬ (("compact" : String) = "") := by decide
  refine ⟨?_, ?_, ?_⟩
  · intro h
    rw [GenerateLayout_eq_tabBlocks, h]
    simp only [scaffoldText, if_true]
  · intro h
    rw [GenerateLayout_eq_tabBlocks, h]
    simp only [scaffoldText, hc, if_false, if_true]
  · intro h1 h2
    rw [GenerateLayout_eq_tabBlocks]
    simp only [scaffoldText, h1, h2, if_false]

set_option maxRecDepth 100000 in
/-- C19 at inputs: a project without tabs with the base template names ``, `compact` and
`strider`. -/
theorem C19_scaffold_witness :
    (⟨"p", "/srv", "", "", "", [], []⟩ : Project).DefaultLayout = "" ∧
    GenerateLayout (Runtime.inOrder "") ⟨"p", "/srv", "", "", "", [], []⟩
      = some "session_name \"p\"\n\nlayout \x7b\n    default_tab_template \x7b\n        pane size=1 borderless=true \x7b\n            plugin location=\"zellij:tab-bar\"\n        \x7d\n        children\n        pane size=2 borderless=true \x7b\n            plugin location=\"zellij:status-bar\"\n        \x7d\n    \x7d\n\n\x7d\n" ∧
    (⟨"p", "/srv", "", "", "strider", [], []⟩ : Project).DefaultLayout ≠ "" ∧
    (⟨"p", "/srv", "", "", "strider", [], []⟩ : Project).DefaultLayout ≠ "compact" ∧
    GenerateLayout (Runtime.inOrder "") ⟨"p", "/srv", "", "", "strider", [], []⟩
      = some "session_name \"p\"\n\nlayout \x7b\n    // Extending from strider layout\n\x7d\n" :=
  ⟨rfl,
    ((C19_scaffold (Runtime.inOrder "") ⟨"p", "/srv", "", "", "", [], []⟩).1 rfl).trans
      (by decide),
    by decide, by decide,
    ((C19_scaffold (Runtime.inOrder "") ⟨"p", "/srv", "", "", "strider", [], []⟩).2.2
      (by decide) (by decide)).trans (by decide)⟩

/-! ### Scanning a layout text -/

theorem lex_append (a b : List Char) :
    ∀ s : LexState, lex s (a ++ b) = (lex s a).bind (fun s' => lex s' b) := by
  induction a with
  | nil => intro s; rfl
  | cons c cs ih =>
    intro s
    simp only [List.cons_append, lex]
    cases lexStep s c with
    | none => rfl
    | some s' => simpa using ih s'

theorem lexStep_shift (s s' : LexState) (c : Char) (k : Nat) (h : lexStep s c = some s') :
    lexStep ⟨s.depth + k, s.mode⟩ c = some ⟨s'.depth + k, s'.mode⟩ := by
  obtain ⟨depth, mode⟩ := s
  cases mode with
  | value escaped =>
    simp only [lexStep] at h ⊢
    split_ifs at h ⊢ <;> (cases h; rfl)
  | lineComment =>
    simp only [lexStep] at h ⊢
    split_ifs at h ⊢ <;> (cases h; rfl)
  | blockComment level last =>
    simp only [lexStep] at h ⊢
    split_ifs at h ⊢
    · cases level <;> (cases h; rfl)
    · cases h; rfl
    · cases h; rfl
  | code afterSlash =>
    simp only [lexStep] at h ⊢
    split_ifs at h ⊢ <;> first
      | (cases h; rfl)
      | omega
      | (cases h; simp only [LexState.mk.injEq, Option.some.injEq, and_true]; omega)

theorem lex_shift (t : List Char) (k : Nat) :
    ∀ s s' : LexState, lex s t = some s' →
      lex ⟨s.depth + k, s.mode⟩ t = some ⟨s'.depth + k, s'.mode⟩ := by
  induction t with
  | nil =>
    intro s s' h
    simp only [lex, Option.some.injEq] at h ⊢
    subst h; rfl
  | cons c cs ih =>
    intro s s' h
    simp only [lex] at h ⊢
    cases hc : lexStep s c with
    | none => rw [hc] at h; exact Option.noConfusion h
    | some m =>
      rw [hc] at h
      rw [lexStep_shift s m c k hc]
      exact ih m s' h

theorem Step.of_lex {t : String} {i j : LexMode} {a b : Nat}
    (h : lex ⟨a, i⟩ t.data = some ⟨b, j⟩) : Step t i a j b := by
  intro d
  have := lex_shift t.data d _ _ h
  simpa [Nat.add_comm] using this

theorem Step.append {t u : String} {i j k : LexMode} {a b c : Nat}
    (h1 : Step t i a j b) (h2 : Step u j b k c) : Step (t ++ u) i a k c := by
  intro d
  rw [String.data_append, lex_append, h1 d]
  exact h2 d

theorem Step.weaken {t : String} {i j : LexMode} {a b : Nat} (n : Nat) (h : Step t i a j b) :
    Step t i (a + n) j (b + n) := by
  intro d
  have := h (d + n)
  simpa [Nat.add_assoc, Nat.add_comm n] using this

theorem Step.empty (i : LexMode) (a : Nat) : Step "" i a i a := fun _ => rfl

/-- A text without line break stays inside a `//` comment. -/
theorem Step.comment {t : String} (h : noLineBreak t) :
    Step t .lineComment 0 .lineComment 0 := by
  intro d
  unfold noLineBreak at h
  generalize t.data = cs at h
  induction cs with
  | nil => rfl
  | cons c cs ih =>
    have h1 := h c (List.mem_cons_self _ _)
    simp only [lex, lexStep, h1, Bool.false_eq_true, if_false, Option.some_bind]
    exact ih (fun c hc => h c (List.mem_cons_of_mem _ hc))

theorem Step.inner {t : String} (h : noQuoteNoBackslash t) :
    Step t (.value false) 0 (.value false) 0 := by
  intro d
  unfold noQuoteNoBackslash at h
  generalize t.data = cs at h
  induction cs with
  | nil => rfl
  | cons c cs ih =>
    obtain ⟨h1, h2⟩ := h c (List.mem_cons_self _ _)
    simp only [lex, lexStep, Bool.false_eq_true, if_false, h1, h2, Option.some_bind]
    exact ih (fun c hc => h c (List.mem_cons_of_mem _ hc))

theorem Step.escapedQuotes {t : String} (h : noBackslash t) :
    Step (ReplaceAll t "\"" "\\\"") (.value false) 0 (.value false) 0 := by
  intro d
  rw [ReplaceAll_quote]
  unfold noBackslash at h
  generalize t.data = cs at h
  induction cs with
  | nil => rfl
  | cons c cs ih =>
    have h1 := h c (List.mem_cons_self _ _)
    have ih2 := ih (fun c hc => h c (List.mem_cons_of_mem _ hc))
    rw [List.flatMap_cons]
    by_cases hq : c = '"'
    · subst hq
      rw [if_pos rfl, List.cons_append, List.cons_append, List.nil_append]
      simp only [lex, lexStep, if_true, Bool.false_eq_true, if_false, Option.some_bind]
      exact ih2
    · rw [if_neg hq, List.cons_append, List.nil_append]
      simp only [lex, lexStep, Bool.false_eq_true, if_false, h1, hq, Option.some_bind]
      exact ih2

/-- A value between double quotes. -/
theorem Step.quoted {v : String} (h : Step v (.value false) 0 (.value false) 0) :
    Step ("\"" ++ v ++ "\"") (.code false) 0 (.code false) 0 :=
  ((Step.of_lex (t := "\"") (by decide : lex ⟨0, .code false⟩ "\"".data
      = some ⟨0, .value false⟩)).append h).append
    (Step.of_lex (t := "\"") (by decide : lex ⟨0, .value false⟩ "\"".data
      = some ⟨0, .code false⟩))

theorem noQuoteNoBackslash.concat {s t : String} (hs : noQuoteNoBackslash s)
    (ht : noQuoteNoBackslash t) : noQuoteNoBackslash (s ++ t) := by
  intro c hc
  rw [String.data_append, List.mem_append] at hc
  exact hc.elim (hs c) (ht c)

theorem noBackslash.cat {s t : String} (hs : noBackslash s) (ht : noBackslash t) :
    noBackslash (s ++ t) := by
  intro c hc
  rw [String.data_append, List.mem_append] at hc
  exact hc.elim (hs c) (ht c)

theorem noQuoteNoBackslash.toNoBackslash {s : String} (hs : noQuoteNoBackslash s) :
    noBackslash s := fun c hc => (hs c hc).2

theorem noBackslash_Join (sep : String) (hsep : noBackslash sep) :
    ∀ l : List String, (∀ s ∈ l, noBackslash s) → noBackslash (Join l sep)
  | [], _ => by intro c hc; simp [Join] at hc
  | [a], h => by simpa [Join] using h a (List.mem_cons_self _ _)
  | a :: b :: rest, h => by
    rw [Join]
    exact ((h a (List.mem_cons_self _ _)).cat hsep).cat
      (noBackslash_Join sep hsep (b :: rest) (fun s hs => h s (List.mem_cons_of_mem _ hs)))

theorem ite_mem_of_mem {α : Type} {p : Prop} [Decidable p] {a b : α} {l : List α}
    (ha : a ∈ l) (hb : b ∈ l) : (if p then a else b) ∈ l := by
  split <;> assumption

theorem digitChar_mem (n : Nat) :
    Nat.digitChar n ∈ ['0', '1', '2', '3', '4', '5', '6', '7', '8', '9', 'a', 'b', 'c', 'd', 'e',
      'f', '*'] := by
  unfold Nat.digitChar
  iterate 16 (refine ite_mem_of_mem (by decide) ?_)
  decide

theorem digitChar_safe (n : Nat) : Nat.digitChar n ≠ '"' ∧ Nat.digitChar n ≠ '\\' := by
  have h : ∀ c ∈ ['0', '1', '2', '3', '4', '5', '6', '7', '8', '9', 'a', 'b', 'c', 'd', 'e',
      'f', '*'], c ≠ '"' ∧ c ≠ '\\' := by decide
  exact h _ (digitChar_mem n)

theorem toDigitsCore_safe :
    ∀ (fuel n : Nat) (ds : List Char), (∀ c ∈ ds, c ≠ '"' ∧ c ≠ '\\') →
      ∀ c ∈ Nat.toDigitsCore 10 fuel n ds, c ≠ '"' ∧ c ≠ '\\'
  | 0, _, ds, h => by simpa [Nat.toDigitsCore] using h
  | fuel + 1, n, ds, h => by
    have hcons : ∀ c ∈ Nat.digitChar (n % 10) :: ds, c ≠ '"' ∧ c ≠ '\\' := by
      intro c hc
      rcases List.mem_cons.mp hc with rfl | hc
      · exact digitChar_safe _
      · exact h c hc
    simp only [Nat.toDigitsCore]
    split
    · exact hcons
    · exact toDigitsCore_safe fuel (n / 10) _ hcons

/-- The decimal text of a number followed by `%` has no double quote and no backslash. -/
theorem percent_safe (n : Nat) : noQuoteNoBackslash (toString n ++ "%") := by
  refine noQuoteNoBackslash.concat ?_ (by unfold noQuoteNoBackslash; decide)
  intro c hc
  exact toDigitsCore_safe _ _ [] (by simp) c hc

/-- The command block of a pane scans as a sequence of complete values outside any block, when
the indentation does and the texts that go into the argument have no backslash (and, for a
pane without commands, the root and the shell have no double quote). -/
theorem paneBlock_step (rt : Runtime) (call : Nat) (pane : Pane) (root : String) (env : EnvMap)
    (indent : String) (hi : Step indent (.code false) 0 (.code false) 0)
    (hshell : noQuoteNoBackslash rt.SHELL) (hroot : noQuoteNoBackslash root)
    (henv : ∀ kv ∈ env, noBackslash kv.1 ∧ noBackslash kv.2)
    (hcmd : ∀ c ∈ pane.Commands, noBackslash c) :
    Step (writePaneCommand rt ⟨"", call⟩ pane root env indent).buf (.code false) 0 (.code false) 0 := by
  have hsh : noQuoteNoBackslash (if rt.SHELL = "" then "/bin/bash" else rt.SHELL) := by
    split
    · unfold noQuoteNoBackslash; decide
    · exact hshell
  by_cases hlen : pane.Commands.length > 0
  · simp only [writePaneCommand, Builder.WriteString]
    rw [if_pos hlen]
    refine ((Step.empty _ _).append (hi.append (Step.of_lex (by decide)))).append
      (((hi.append (Step.of_lex (by decide))).append (Step.escapedQuotes ?_)).append
        (Step.of_lex (by decide)))
    have henvStr : noBackslash
        (if env.length > 0 then
          Join ((rt.rangeOrder call env).map
            (fun kv => "export " ++ kv.1 ++ "='" ++ kv.2 ++ "'")) "; " ++ "; "
        else "") := by
      split
      · refine (noBackslash_Join _ (by unfold noBackslash; decide) _ ?_).cat
          (by unfold noBackslash; decide)
        intro s hs
        obtain ⟨kv, hkv, rfl⟩ := List.mem_map.mp hs
        have hmem := (rt.rangeOrder_perm call env).mem_iff.mp hkv
        exact ((((by unfold noBackslash; decide : noBackslash "export ").cat
          (henv kv hmem).1).cat (by unfold noBackslash; decide)).cat
          (henv kv hmem).2).cat (by unfold noBackslash; decide)
      · unfold noBackslash; decide
    exact (((((henvStr.cat (by unfold noBackslash; decide)).cat hroot.toNoBackslash).cat
      (by unfold noBackslash; decide)).cat
      (noBackslash_Join _ (by unfold noBackslash; decide) _ hcmd)).cat
      (by unfold noBackslash; decide)).cat hsh.toNoBackslash
  · simp only [writePaneCommand, Builder.WriteString]
    rw [if_neg hlen]
    refine ((Step.empty _ _).append (hi.append (Step.of_lex (by decide)))).append
      (((hi.append (Step.of_lex (by decide))).append (Step.inner ?_)).append
        (Step.of_lex (by decide)))
    exact (((by unfold noQuoteNoBackslash; decide :
      noQuoteNoBackslash "cd '").concat hroot).concat
      (by unfold noQuoteNoBackslash; decide)).concat hsh

theorem Step.indentMore {indent : String} (hi : Step indent (.code false) 0 (.code false) 0) :
    Step (indent ++ "    ") (.code false) 0 (.code false) 0 :=
  hi.append (Step.of_lex (by decide))

theorem Step.focusMarker (b : Bool) :
    Step (if b = true then " focus=true" else "") (.code false) 0 (.code false) 0 := by
  cases b
  · exact Step.of_lex (by decide)
  · exact Step.of_lex (by decide)

theorem Step.sizeAttr (size : Option String) (t : String)
    (ht : t = match size with
      | none => ""
      | some s => " size=\"" ++ s ++ "\"")
    (h : ∀ s, size = some s → noQuoteNoBackslash s) : Step t (.code false) 0 (.code false) 0 := by
  subst ht
  cases size with
  | none => exact Step.empty _ _
  | some s =>
    exact ((Step.of_lex (t := " size=\"") (by decide : lex ⟨0, .code false⟩
      " size=\"".data = some ⟨0, .value false⟩)).append
      (Step.inner (h s rfl))).append
      (Step.of_lex (t := "\"") (by decide : lex ⟨0, .value false⟩ "\"".data
        = some ⟨0, .code false⟩))

mutual
/-- The text of a safe tree scans as complete blocks and values. -/
theorem render_step (rt : Runtime) (root : String) (env : EnvMap)
    (leafOk : Pane → Nat → Prop)
    (hleaf : ∀ pane call indent, leafOk pane call → Step indent (.code false) 0 (.code false) 0 →
      Step (writePaneCommand rt ⟨"", call⟩ pane root env indent).buf (.code false) 0 (.code false) 0) :
    ∀ (node : Node) (indent : String), node.Safe leafOk → Step indent (.code false) 0 (.code false) 0 →
      Step (node.render rt root env indent) (.code false) 0 (.code false) 0
  | .leaf pane call, indent, hs, hi => by
    simp only [Node.render]
    exact (((((hi.append (Step.of_lex (by decide))).append (Step.focusMarker _)).append
      (Step.of_lex (t := " \x7b\n") (by decide : lex ⟨0, .code false⟩ " \x7b\n".data
        = some ⟨1, .code false⟩))).append
      ((hleaf pane call _ hs hi.indentMore).weaken 1)).append (hi.weaken 1)).append
      (Step.of_lex (t := "\x7d\n") (by decide : lex ⟨1, .code false⟩ "\x7d\n".data
        = some ⟨0, .code false⟩))
  | .split direction size children, indent, hs, hi => by
    obtain ⟨hd, hsz, hch⟩ := hs
    simp only [Node.render]
    exact (((((((hi.append (Step.of_lex (t := "pane split_direction=\"")
        (by decide : lex ⟨0, .code false⟩ "pane split_direction=\"".data
          = some ⟨0, .value false⟩))).append (Step.inner hd)).append
      (Step.of_lex (t := "\"") (by decide : lex ⟨0, .value false⟩ "\"".data
        = some ⟨0, .code false⟩))).append (Step.sizeAttr size _ rfl hsz)).append
      (Step.of_lex (t := " \x7b\n") (by decide : lex ⟨0, .code false⟩ " \x7b\n".data
        = some ⟨1, .code false⟩))).append
      ((renderAll_step rt root env leafOk hleaf children _ hch hi.indentMore).weaken 1)).append
      (hi.weaken 1)).append
      (Step.of_lex (t := "\x7d\n") (by decide : lex ⟨1, .code false⟩ "\x7d\n".data
        = some ⟨0, .code false⟩))
theorem renderAll_step (rt : Runtime) (root : String) (env : EnvMap)
    (leafOk : Pane → Nat → Prop)
    (hleaf : ∀ pane call indent, leafOk pane call → Step indent (.code false) 0 (.code false) 0 →
      Step (writePaneCommand rt ⟨"", call⟩ pane root env indent).buf (.code false) 0 (.code false) 0) :
    ∀ (nodes : List Node) (indent : String), Node.SafeAll leafOk nodes →
      Step indent (.code false) 0 (.code false) 0 →
      Step (Node.renderAll rt root env indent nodes) (.code false) 0 (.code false) 0
  | [], _, _, _ => Step.empty _ _
  | n :: ns, indent, hs, hi => by
    simp only [Node.renderAll]
    exact (render_step rt root env leafOk hleaf n indent hs.1 hi).append
      (renderAll_step rt root env leafOk hleaf ns indent hs.2 hi)
end

theorem safeAll_map_wrap (leafOk : Pane → Nat → Prop) (wrap : Pane → Nat → Node) :
    ∀ (l : List Pane) (call : Nat), (∀ p ∈ l, ∀ k, (wrap p k).Safe leafOk) →
      Node.SafeAll leafOk ((l.enumFrom call).map (fun ip => wrap ip.2 ip.1))
  | [], _, _ => trivial
  | p :: l, call, h =>
    ⟨h p (List.mem_cons_self _ _) call,
      safeAll_map_wrap leafOk wrap l (call + 1) (fun q hq => h q (List.mem_cons_of_mem _ hq))⟩

theorem safeAll_chainNodes (leafOk : Pane → Nat → Prop) (wrap : Pane → Nat → Node)
    (call : Nat) (panes : List Pane) (hl : ∀ p ∈ panes, ∀ k, leafOk p k)
    (hw : ∀ p ∈ panes, ∀ k, (wrap p k).Safe leafOk) :
    Node.SafeAll leafOk (chainNodes wrap call panes) := by
  cases panes with
  | nil => trivial
  | cons p0 rest =>
    exact ⟨hl p0 (List.mem_cons_self _ _) call,
      safeAll_map_wrap leafOk wrap rest _ (fun q hq => hw q (List.mem_cons_of_mem _ hq))⟩

theorem safe_literal_split (leafOk : Pane → Nat → Prop) (dir size : String)
    (hd : noQuoteNoBackslash dir) (hs : noQuoteNoBackslash size) (children : List Node)
    (hc : Node.SafeAll leafOk children) :
    (Node.split dir (some size) children).Safe leafOk :=
  ⟨hd, fun s h => by cases h; exact hs, hc⟩

theorem safe_evenContainer (leafOk : Pane → Nat → Prop) (dir : String)
    (hd : noQuoteNoBackslash dir) (n : Nat) (p : Pane) (k : Nat) (hp : leafOk p k) :
    (evenContainer dir n p k).Safe leafOk :=
  safe_literal_split leafOk dir _ hd (percent_safe _) _ ⟨hp, trivial⟩

theorem safe_manualContainer (leafOk : Pane → Nat → Prop) (p : Pane) (k : Nat)
    (hp : leafOk p k) (hsize : noQuoteNoBackslash p.Size) :
    (manualContainer p k).Safe leafOk := by
  refine ⟨?_, ?_, ⟨hp, trivial⟩⟩
  · split <;> (unfold noQuoteNoBackslash; decide)
  · intro s hs
    split at hs
    · exact Option.noConfusion hs
    · cases hs
      exact hsize.concat (by unfold noQuoteNoBackslash; decide)

theorem safeAll_mainNodes (leafOk : Pane → Nat → Prop) (outer inner : String)
    (ho : noQuoteNoBackslash outer) (hin : noQuoteNoBackslash inner) (call : Nat)
    (panes : List Pane) (hl : ∀ p ∈ panes, ∀ k, leafOk p k) :
    Node.SafeAll leafOk (mainNodes outer inner call panes) := by
  match panes with
  | [] => trivial
  | [p0] => exact ⟨hl p0 (by simp) call, trivial⟩
  | p0 :: p1 :: rest =>
    refine ⟨hl p0 (by simp) call, ?_, trivial⟩
    refine safe_literal_split leafOk outer "30%" ho (by unfold noQuoteNoBackslash; decide) _
      ⟨hl p1 (by simp) _, ?_⟩
    exact safeAll_map_wrap leafOk _ rest _
      (fun q hq k => safe_evenContainer leafOk inner hin _ q k (hl q (by simp [hq]) k))

theorem safeAll_tiledNodes (leafOk : Pane → Nat → Prop) (call : Nat) (panes : List Pane)
    (hl : ∀ p ∈ panes, ∀ k, leafOk p k) :
    Node.SafeAll leafOk (tiledNodes call panes) := by
  have hv : noQuoteNoBackslash "vertical" := by unfold noQuoteNoBackslash; decide
  have hh : noQuoteNoBackslash "horizontal" := by unfold noQuoteNoBackslash; decide
  have h50 : noQuoteNoBackslash "50%" := by unfold noQuoteNoBackslash; decide
  match panes with
  | [] => trivial
  | [p0] => exact ⟨hl p0 (by simp) call, trivial⟩
  | [p0, p1] =>
    exact safeAll_chainNodes leafOk _ call [p0, p1] hl
      (fun q hq k => safe_evenContainer leafOk _ hv _ q k (hl q hq k))
  | [p0, p1, p2] =>
    exact ⟨hl p0 (by simp) call,
      safe_literal_split leafOk _ _ hv h50 _
        ⟨hl p1 (by simp) _,
          safe_literal_split leafOk _ _ hh h50 _ ⟨hl p2 (by simp) _, trivial⟩, trivial⟩,
      trivial⟩
  | [p0, p1, p2, p3] =>
    exact ⟨hl p0 (by simp) call,
      safe_literal_split leafOk _ _ hv h50 _ ⟨hl p1 (by simp) _, trivial⟩,
      safe_literal_split leafOk _ _ hh h50 _
        ⟨hl p2 (by simp) _,
          safe_literal_split leafOk _ _ hv h50 _ ⟨hl p3 (by simp) _, trivial⟩, trivial⟩,
      trivial⟩
  | p0 :: p1 :: p2 :: p3 :: p4 :: rest =>
    rw [tiledNodes_of_length_gt _ _ (by simp)]
    exact safeAll_chainNodes leafOk _ call _ hl
      (fun q hq k => safe_evenContainer leafOk _ hh _ q k (hl q hq k))

/-- The tree prescribed for a tab is safe when its leaves are and, for a pattern name that is
not recognised, the sizes of the panes have no double quote and no backslash. -/
theorem safeAll_patternNodes (leafOk : Pane → Nat → Prop) (layoutType : String) (call : Nat)
    (panes : List Pane) (hl : ∀ p ∈ panes, ∀ k, leafOk p k)
    (hsize : layoutType ∉ recognisedPatterns → ∀ p ∈ panes, noQuoteNoBackslash p.Size) :
    Node.SafeAll leafOk (patternNodes layoutType call panes) := by
  have hv : noQuoteNoBackslash "vertical" := by unfold noQuoteNoBackslash; decide
  have hh : noQuoteNoBackslash "horizontal" := by unfold noQuoteNoBackslash; decide
  unfold patternNodes
  split
  · exact safeAll_chainNodes leafOk _ call _ hl
      (fun q hq k => safe_evenContainer leafOk _ hh _ q k (hl q hq k))
  split
  · exact safeAll_chainNodes leafOk _ call _ hl
      (fun q hq k => safe_evenContainer leafOk _ hv _ q k (hl q hq k))
  split
  · exact safeAll_mainNodes leafOk _ _ hv hh _ _ hl
  split
  · exact safeAll_mainNodes leafOk _ _ hh hv _ _ hl
  split
  · exact safeAll_tiledNodes leafOk _ _ hl
  · rename_i h1 h2 h3 h4 h5
    have hnot : layoutType ∉ recognisedPatterns := by
      simp [recognisedPatterns, h1, h2, h3, h4, h5]
    exact safeAll_chainNodes leafOk _ call _ hl
      (fun q hq k => safe_manualContainer leafOk q k (hl q hq k) (hsize hnot q hq))

theorem Step.focusIf (p : Prop) [Decidable p] :
    Step (if p then " focus=true" else "") (.code false) 0 (.code false) 0 := by
  split
  · exact Step.of_lex (by decide)
  · exact Step.of_lex (by decide)

theorem tabBlocks_step (rt : Runtime) (root : String) (env : EnvMap) (focused : Nat)
    (hshell : noQuoteNoBackslash rt.SHELL) (hroot : noQuoteNoBackslash root)
    (henv : ∀ kv ∈ env, noBackslash kv.1 ∧ noBackslash kv.2) :
    ∀ (tabs : List Tab) (i call : Nat),
      (∀ tab ∈ tabs, noQuoteNoBackslash tab.Name ∧
        ∀ pane ∈ tab.Panes, (∀ c ∈ pane.Commands, noBackslash c) ∧
          (tab.Layout ∉ recognisedPatterns → noQuoteNoBackslash pane.Size)) →
      Step (concatText (List.zipWith
          (fun (it : Nat × Tab) (body : String) =>
            "    tab name=\"" ++ it.2.Name ++ "\" cwd=\"" ++ root ++ "\""
              ++ (if it.1 = focused then " focus=true" else "")
              ++ " \x7b\n" ++ body ++ "    \x7d\n")
          (tabs.enumFrom i) (tabBodies rt root env call tabs))) (.code false) 0 (.code false) 0
  | [], _, _, _ => Step.empty _ _
  | tab :: tabs, i, call, h => by
    obtain ⟨hname, hpanes⟩ := h tab (List.mem_cons_self _ _)
    have hbody : Step (Node.renderAll rt root env "        "
        (patternNodes tab.Layout call tab.Panes)) (.code false) 0 (.code false) 0 :=
      renderAll_step rt root env (fun pane _ => ∀ c ∈ pane.Commands, noBackslash c)
        (fun pane k indent hp hi =>
          paneBlock_step rt k pane root env indent hi hshell hroot henv hp)
        _ _
        (safeAll_patternNodes _ _ _ _ (fun p hp _ => (hpanes p hp).1)
          (fun hn p hp => (hpanes p hp).2 hn))
        (Step.of_lex (by decide))
    simp only [List.enumFrom_cons, tabBodies, List.zipWith_cons_cons, concatText]
    refine Step.append ?_ (tabBlocks_step rt root env focused hshell hroot henv tabs (i + 1) _
      (fun t ht => h t (List.mem_cons_of_mem _ ht)))
    exact ((((((((Step.of_lex (t := "    tab name=\"")
        (by decide : lex ⟨0, .code false⟩ "    tab name=\"".data
          = some ⟨0, .value false⟩)).append (Step.inner hname)).append
      (Step.of_lex (t := "\" cwd=\"") (by decide : lex ⟨0, .value false⟩ "\" cwd=\"".data
        = some ⟨0, .value false⟩))).append (Step.inner hroot)).append
      (Step.of_lex (t := "\"") (by decide : lex ⟨0, .value false⟩ "\"".data
        = some ⟨0, .code false⟩))).append (Step.focusIf _)).append
      (Step.of_lex (t := " \x7b\n") (by decide : lex ⟨0, .code false⟩ " \x7b\n".data
        = some ⟨1, .code false⟩))).append (hbody.weaken 1)).append
      (Step.of_lex (t := "    \x7d\n") (by decide : lex ⟨1, .code false⟩ "    \x7d\n".data
        = some ⟨0, .code false⟩))

set_option maxRecDepth 100000 in
theorem scaffoldText_step (defaultLayout : String) (h : noLineBreak defaultLayout) :
    Step (scaffoldText defaultLayout) (.code false) 0 (.code false) 1 := by
  unfold scaffoldText
  split
  · exact Step.of_lex (by decide)
  split
  · exact Step.of_lex (by decide)
  · exact ((Step.of_lex (t := "layout \x7b\n    // Extending from ")
        (by decide : lex ⟨0, .code false⟩ "layout \x7b\n    // Extending from ".data
          = some ⟨1, .lineComment⟩)).append ((Step.comment h).weaken 1)).append
      ((Step.of_lex (t := " layout\n") (by decide : lex ⟨0, .lineComment⟩ " layout\n".data
        = some ⟨0, .code false⟩)).weaken 1)

set_option maxRecDepth 100000 in
/-- C20 (counterexample): a tab named `a"b` gives the header `tab name="a"b" cwd="/srv"`; the
layout is not well formed, the scan ends inside a quoted value with a block open. -/
theorem C20_quote_in_tab_name :
    GenerateLayout (Runtime.inOrder "")
        ⟨"demo", "/srv", "", "", "x", [⟨"a\"b", false, "", []⟩], []⟩
      = some "session_name \"demo\"\n\nlayout \x7b\n    // Extending from x layout\n    tab name=\"a\"b\" cwd=\"/srv\" focus=true \x7b\n    \x7d\n\x7d\n" ∧
    wellFormed "session_name \"demo\"\n\nlayout \x7b\n    // Extending from x layout\n    tab name=\"a\"b\" cwd=\"/srv\" focus=true \x7b\n    \x7d\n\x7d\n"
      = false := by
  decide

/-- C20 (amended): when the texts that are written between double quotes without escaping
(the session name, or the project name in its place, the tab names, the root, the shell path,
and the pane sizes of tabs in manual mode) contain no double quote and no backslash, the
commands and the environment entries contain no backslash, and the base template name, which
is written on a `//` comment line, contains no line break, the layout is returned and is well
formed: every block that is opened is closed by a matching brace and every double-quoted
value is closed, comments being read as comments. -/
theorem C20_well_formed_for_clean_fields (rt : Runtime) (project : Project)
    (hsession : noQuoteNoBackslash
      (if project.SessionName = "" then project.Name else project.SessionName))
    (hroot : noQuoteNoBackslash project.Root)
    (hshell : noQuoteNoBackslash rt.SHELL)
    (hbase : noLineBreak project.DefaultLayout)
    (henv : ∀ kv ∈ project.Env, noBackslash kv.1 ∧ noBackslash kv.2)
    (htabs : ∀ tab ∈ project.Tabs, noQuoteNoBackslash tab.Name ∧
      ∀ pane ∈ tab.Panes, (∀ c ∈ pane.Commands, noBackslash c) ∧
        (tab.Layout ∉ recognisedPatterns → noQuoteNoBackslash pane.Size)) :
    ∃ out : String, GenerateLayout rt project = some out ∧ wellFormed out = true := by
  refine ⟨_, GenerateLayout_eq rt project, ?_⟩
  have hstep : Step (sessionLine project ++ scaffoldText project.DefaultLayout
      ++ concatText (List.zipWith
          (fun (it : Nat × Tab) (body : String) =>
            "    tab name=\"" ++ it.2.Name ++ "\" cwd=\"" ++ project.Root ++ "\""
              ++ (if it.1 = focusedTabIndexFrom 0 project.Tabs then " focus=true" else "")
              ++ " \x7b\n" ++ body ++ "    \x7d\n")
          project.Tabs.enum (tabBodies rt project.Root project.Env 0 project.Tabs))
      ++ "\x7d\n") (.code false) 0 (.code false) 0 := by
    refine (((?_ : Step (sessionLine project) (.code false) 0 (.code false) 0).append
      (scaffoldText_step _ hbase)).append
      ((tabBlocks_step rt project.Root project.Env _ hshell hroot henv project.Tabs 0 0
        htabs).weaken 1)).append
      (Step.of_lex (t := "\x7d\n") (by decide : lex ⟨1, .code false⟩ "\x7d\n".data
        = some ⟨0, .code false⟩))
    unfold sessionLine
    exact ((Step.of_lex (t := "session_name \"")
        (by decide : lex ⟨0, .code false⟩ "session_name \"".data
          = some ⟨0, .value false⟩)).append (Step.inner hsession)).append
      (Step.of_lex (t := "\"\n\n") (by decide : lex ⟨0, .value false⟩ "\"\n\n".data
        = some ⟨0, .code false⟩))
  have h0 := hstep 0
  simp only [Nat.zero_add] at h0
  unfold wellFormed
  rw [h0]

set_option maxRecDepth 100000 in
/-- C20 (amended) at an input: a base template name with a double quote, a brace and the
opening of a block comment, a command with double quotes and braces, an environment entry, a
manual-mode tab with a size and a tiled tab. -/
theorem C20_well_formed_for_clean_fields_witness :
    noQuoteNoBackslash "demo" ∧ noQuoteNoBackslash "/srv" ∧ noQuoteNoBackslash "/bin/zsh" ∧
    noLineBreak "my \"base\" \x7b /*" ∧
    (∀ kv ∈ ([("A", "x\"y")] : EnvMap), noBackslash kv.1 ∧ noBackslash kv.2) ∧
    (∀ tab ∈ ([⟨"one", false, "", [⟨false, ["echo \"\x7b\""], "", ""⟩, ⟨true, [], "30", ""⟩]⟩,
        ⟨"two", true, "tiled", [⟨false, [], "a\"b", ""⟩, ⟨false, ["ls"], "", ""⟩,
          ⟨false, [], "", ""⟩]⟩] : List Tab),
      noQuoteNoBackslash tab.Name ∧
        ∀ pane ∈ tab.Panes, (∀ c ∈ pane.Commands, noBackslash c) ∧
          (tab.Layout ∉ recognisedPatterns → noQuoteNoBackslash pane.Size)) ∧
    ∃ out : String,
      GenerateLayout (Runtime.reversed "/bin/zsh")
          ⟨"p", "/srv", "demo", "", "my \"base\" \x7b /*",
            [⟨"one", false, "", [⟨false, ["echo \"\x7b\""], "", ""⟩, ⟨true, [], "30", ""⟩]⟩,
              ⟨"two", true, "tiled", [⟨false, [], "a\"b", ""⟩, ⟨false, ["ls"], "", ""⟩,
                ⟨false, [], "", ""⟩]⟩],
            [("A", "x\"y")]⟩ = some out ∧
        wellFormed out = true :=
  ⟨by decide, by decide, by decide, by decide, by decide, by decide,
    C20_well_formed_for_clean_fields (Runtime.reversed "/bin/zsh")
      ⟨"p", "/srv", "demo", "", "my \"base\" \x7b /*",
        [⟨"one", false, "", [⟨false, ["echo \"\x7b\""], "", ""⟩, ⟨true, [], "30", ""⟩]⟩,
          ⟨"two", true, "tiled", [⟨false, [], "a\"b", ""⟩, ⟨false, ["ls"], "", ""⟩,
            ⟨false, [], "", ""⟩]⟩],
        [("A", "x\"y")]⟩
      (by decide) (by decide) (by decide) (by decide) (by decide) (by decide)⟩

/-- What `generatePanesWithLayout` gives with any bound of two or more on the depth of its
self-calls. -/
theorem generatePanesWithLayoutFuel_eq (fuel : Nat) (rt : Runtime) (st : Builder)
    (layoutType : String) (panes : List Pane) (rootDir : String) (envVars : EnvMap)
    (indent : String) :
    generatePanesWithLayoutFuel (fuel + 2) rt st layoutType panes rootDir envVars indent
      = some ⟨st.buf ++ Node.renderAll rt rootDir envVars indent
          (patternNodes layoutType st.calls panes), st.calls + panes.length⟩ := by
  unfold patternNodes
  by_cases h1 : layoutType = "even-horizontal"
  · subst h1; simp [fuel_evenHorizontal]
  by_cases h2 : layoutType = "even-vertical"
  · subst h2; simp [fuel_evenVertical]
  by_cases h3 : layoutType = "main-vertical"
  · subst h3; simp [fuel_mainVertical]
  by_cases h4 : layoutType = "main-horizontal"
  · subst h4; simp [fuel_mainHorizontal]
  by_cases h5 : layoutType = "tiled"
  · subst h5; simp [fuel_tiled]
  rw [fuel_default (fuel + 1) rt st layoutType panes rootDir envVars indent h1 h2 h3 h4 h5,
    generatePanes_eq]
  simp [h1, h2, h3, h4, h5]

/-- C21: `GenerateLayout` returns a layout for every project, and `generatePanes` and
`generatePanesWithLayout` return for every pattern name and every pane list: no division is
evaluated with divisor zero and no pane index is out of bounds (either would give `none`).
The depth bound of the model is never reached: any bound of two or more gives the result of
`generatePanesWithLayout`. -/
theorem C21_total (rt : Runtime) (project : Project) (st : Builder) (layoutType : String)
    (panes : List Pane) (root : String) (env : EnvMap) (indent : String) :
    (∃ out : String, GenerateLayout rt project = some out) ∧
    (∃ st' : Builder, generatePanes rt st panes root env indent = some st') ∧
    (∃ st' : Builder,
      generatePanesWithLayout rt st layoutType panes root env indent = some st') ∧
    (∀ fuel : Nat,
      generatePanesWithLayoutFuel (fuel + 2) rt st layoutType panes root env indent
        = generatePanesWithLayout rt st layoutType panes root env indent) ∧
    (panes ≠ [] → ∃ size : Nat, goDiv 100 panes.length = some size) ∧
    (panes.length > 2 → ∃ size : Nat, goDiv 100 (panes.length - 1) = some size) :=
  ⟨⟨_, GenerateLayout_eq rt project⟩, ⟨_, generatePanes_eq rt st panes root env indent⟩,
    ⟨_, generatePanesWithLayout_eq rt st layoutType panes root env indent⟩,
    fun fuel => by rw [generatePanesWithLayoutFuel_eq, generatePanesWithLayout_eq],
    fun h => ⟨100 / panes.length, by
      have : panes.length ≠ 0 := fun h0 => h (List.length_eq_zero.mp h0)
      simp [goDiv, this]⟩,
    fun h => ⟨100 / (panes.length - 1), by
      have : panes.length - 1 ≠ 0 := by omega
      simp [goDiv, this]⟩⟩

set_option maxRecDepth 100000 in
/-- C21 at inputs: a project with a tab without panes, a tiled tab with five panes and a
`main-vertical` tab with three panes returns a layout. -/
theorem C21_total_witness :
    ([⟨false, [], "", ""⟩, ⟨false, [], "", ""⟩, ⟨false, [], "", ""⟩] : List Pane) ≠ [] ∧
    ([⟨false, [], "", ""⟩, ⟨false, [], "", ""⟩, ⟨false, [], "", ""⟩] : List Pane).length > 2 ∧
    (∃ size : Nat,
      goDiv 100
        (([⟨false, [], "", ""⟩, ⟨false, [], "", ""⟩, ⟨false, [], "", ""⟩] : List Pane).length - 1)
        = some size) ∧
    ∃ out : String,
      GenerateLayout (Runtime.inOrder "")
        ⟨"p", "/srv", "", "", "",
          [⟨"a", false, "tiled", []⟩,
           ⟨"b", false, "tiled", [⟨false, [], "", ""⟩, ⟨false, [], "", ""⟩, ⟨false, [], "", ""⟩,
              ⟨false, [], "", ""⟩, ⟨false, [], "", ""⟩]⟩,
           ⟨"c", false, "main-vertical",
              [⟨false, [], "", ""⟩, ⟨false, [], "", ""⟩, ⟨false, [], "", ""⟩]⟩], []⟩
        = some out :=
  ⟨by decide, by decide,
    (C21_total (Runtime.inOrder "") ⟨"", "", "", "", "", [], []⟩ ⟨"", 0⟩ "main-vertical"
      [⟨false, [], "", ""⟩, ⟨false, [], "", ""⟩, ⟨false, [], "", ""⟩] "/srv" [] "").2.2.2.2.2
      (by decide),
    (C21_total (Runtime.inOrder "")
      ⟨"p", "/srv", "", "", "",
        [⟨"a", false, "tiled", []⟩,
         ⟨"b", false, "tiled", [⟨false, [], "", ""⟩, ⟨false, [], "", ""⟩, ⟨false, [], "", ""⟩,
            ⟨false, [], "", ""⟩, ⟨false, [], "", ""⟩]⟩,
         ⟨"c", false, "main-vertical",
            [⟨false, [], "", ""⟩, ⟨false, [], "", ""⟩, ⟨false, [], "", ""⟩]⟩], []⟩
      ⟨"", 0⟩ "" [] "" [] "").1⟩

/-! ### The command blocks of a tab body -/

theorem concatText_append (a b : List String) :
    concatText (a ++ b) = concatText a ++ concatText b := by
  induction a with
  | nil => simp [concatText]
  | cons s ss ih => simp [concatText, ih, String.append_assoc]

/-- The command block that `writePaneCommand` writes, spelled out. -/
theorem writePaneCommand_text (rt : Runtime) (call : Nat) (pane : Pane) (root : String)
    (env : EnvMap) (indent : String) :
    (writePaneCommand rt ⟨"", call⟩ pane root env indent).buf
      = indent ++ "command \"sh\"\n" ++ indent ++ "args \"-c\" \""
          ++ paneArgument rt call pane root env ++ "\"\n" := by
  by_cases hcmd : pane.Commands = []
  · simp [writePaneCommand, paneArgument, hcmd, Builder.WriteString, String.append_assoc]
  · have hlen : pane.Commands.length > 0 := List.length_pos.mpr hcmd
    have hrep : ∀ s : String, ReplaceAll s "\"" "\\\""
        = ⟨s.data.flatMap (fun c => if c = '"' then ['\\', '"'] else [c])⟩ :=
      fun s => String.ext (ReplaceAll_quote s)
    by_cases henv : env = []
    · subst henv
      simp [writePaneCommand, paneArgument, hcmd, hlen, hrep, Builder.WriteString,
        Join_eq_intercalate, String.append_assoc]
    · have hpos : env.length > 0 := List.length_pos.mpr henv
      simp [writePaneCommand, paneArgument, hcmd, henv, hlen, hpos, hrep, Builder.WriteString,
        Join_eq_intercalate, String.append_assoc]

mutual
theorem render_eq_pieces (rt : Runtime) (root : String) (env : EnvMap) :
    ∀ (node : Node) (indent : String),
      node.render rt root env indent
        = concatText ((node.pieces indent).map (Piece.text rt root env))
  | .leaf pane call, indent => by
    simp only [Node.render, Node.pieces, List.map, Piece.text, concatText,
      writePaneCommand_text]
    simp [String.append_assoc]
  | .split direction size children, indent => by
    simp only [Node.render, Node.pieces, List.map_cons, List.map_append, List.map_nil,
      Piece.text, concatText, concatText_append,
      renderAll_eq_pieces rt root env children (indent ++ "    ")]
    simp [String.append_assoc]
theorem renderAll_eq_pieces (rt : Runtime) (root : String) (env : EnvMap) :
    ∀ (nodes : List Node) (indent : String),
      Node.renderAll rt root env indent nodes
        = concatText ((Node.piecesAll indent nodes).map (Piece.text rt root env))
  | [], _ => rfl
  | n :: ns, indent => by
    simp only [Node.renderAll, Node.piecesAll, List.map_append, concatText_append,
      render_eq_pieces rt root env n indent, renderAll_eq_pieces rt root env ns indent]
end

mutual
theorem blocks_pieces :
    ∀ (node : Node) (indent : String),
      (node.pieces indent).filterMap Piece.block = node.leaves
  | .leaf pane call, indent => rfl
  | .split direction size children, indent => by
    simp only [Node.pieces, Node.leaves, List.filterMap_cons, Piece.block,
      List.filterMap_append, List.filterMap_nil, List.append_nil,
      blocks_piecesAll children (indent ++ "    ")]
theorem blocks_piecesAll :
    ∀ (nodes : List Node) (indent : String),
      (Node.piecesAll indent nodes).filterMap Piece.block = Node.leavesAll nodes
  | [], _ => rfl
  | n :: ns, indent => by
    simp only [Node.piecesAll, Node.leavesAll, List.filterMap_append,
      blocks_pieces n indent, blocks_piecesAll ns indent]
end

/-- C22: for every pattern name and every list of `N` panes the text of the tab body is a
sequence of pieces, each of them a line that opens a leaf pane, a line that opens a split
container, a closing line, or a command block; a command block is the two lines
`command "sh"` and `args "-c" "<argument>"` with the argument synthesised from its pane.  The
command blocks among the pieces are exactly `N`, the `i`-th in output order being the one of
pane `i`, written in the `i`-th call of `writePaneCommand`: no pane is dropped, duplicated or
reordered. -/
theorem C22_every_pane_once_in_order (rt : Runtime) (st : Builder) (layoutType : String)
    (panes : List Pane) (root : String) (env : EnvMap) (indent : String) :
    generatePanesWithLayout rt st layoutType panes root env indent
      = some ⟨st.buf ++ concatText
          ((Node.piecesAll indent (patternNodes layoutType st.calls panes)).map
            (Piece.text rt root env)), st.calls + panes.length⟩ ∧
    (Node.piecesAll indent (patternNodes layoutType st.calls panes)).filterMap Piece.block
      = panes.enumFrom st.calls ∧
    ((Node.piecesAll indent (patternNodes layoutType st.calls panes)).filterMap
      Piece.block).length = panes.length ∧
    (∀ (ind : String) (call : Nat) (pane : Pane),
      Piece.text rt root env (.commandBlock ind call pane)
        = ind ++ "command \"sh\"\n" ++ ind ++ "args \"-c\" \""
            ++ paneArgument rt call pane root env ++ "\"\n") := by
  have hb : (Node.piecesAll indent (patternNodes layoutType st.calls panes)).filterMap
      Piece.block = panes.enumFrom st.calls := by
    rw [blocks_piecesAll, leavesAll_patternNodes]
  refine ⟨?_, hb, ?_, fun _ _ _ => rfl⟩
  · rw [generatePanesWithLayout_eq, renderAll_eq_pieces]
  · rw [hb, List.enumFrom_length]

theorem toDigitsCore_ne_nil (base : Nat) :
    ∀ (fuel n : Nat) (ds : List Char), (fuel ≠ 0 ∨ ds ≠ []) →
      Nat.toDigitsCore base fuel n ds ≠ []
  | 0, _, ds, h => by
    rcases h with h | h
    · exact absurd rfl h
    · simpa [Nat.toDigitsCore] using h
  | fuel + 1, n, ds, _ => by
    simp only [Nat.toDigitsCore]
    split
    · simp
    · exact toDigitsCore_ne_nil base fuel (n / base) _ (Or.inr (by simp))

theorem toString_nat_ne_empty (n : Nat) : toString n ≠ "" := by
  intro h
  have hd : (toString n).data = [] := by rw [h]
  exact toDigitsCore_ne_nil 10 (n + 1) n [] (Or.inl (by simp)) hd

theorem renderAll_manual_eq_even (rt : Runtime) (root : String) (env : EnvMap)
    (indent dir : String) (n : Nat) (f : Pane → Pane)
    (hf : ∀ p k, (manualContainer (f p) k).render rt root env indent
      = (evenContainer dir n p k).render rt root env indent) :
    ∀ (l : List Pane) (call : Nat),
      Node.renderAll rt root env indent
          (((l.map f).enumFrom call).map (fun ip => manualContainer ip.2 ip.1))
        = Node.renderAll rt root env indent
          ((l.enumFrom call).map (fun ip => evenContainer dir n ip.2 ip.1))
  | [], _ => rfl
  | p :: l, call => by
    simp only [List.map_cons, List.enumFrom_cons, Node.renderAll, hf,
      renderAll_manual_eq_even rt root env indent dir n f hf l (call + 1)]

/-- C23: for a list `pane0 :: rest` of `N` panes the result of `even-horizontal`
(respectively `even-vertical`) is identical to the manual-mode result of `generatePanes` on
the list in which every pane after the first has its split field set to `horizontal`
(respectively `vertical`) and its size field set to the decimal text of `100 / N`, focus flags
and commands unchanged. -/
theorem C23_even_is_manual_with_fields (rt : Runtime) (st : Builder) (pane0 : Pane)
    (rest : List Pane) (root : String) (env : EnvMap) (indent : String) :
    generatePanesWithLayout rt st "even-horizontal" (pane0 :: rest) root env indent
      = generatePanes rt st
          (pane0 :: rest.map (fun p =>
            { p with Split := "horizontal", Size := toString (100 / (rest.length + 1)) }))
          root env indent ∧
    generatePanesWithLayout rt st "even-vertical" (pane0 :: rest) root env indent
      = generatePanes rt st
          (pane0 :: rest.map (fun p =>
            { p with Split := "vertical", Size := toString (100 / (rest.length + 1)) }))
          root env indent := by
  have hne := toString_nat_ne_empty (100 / (rest.length + 1))
  have hhv : ¬ ("horizontal" = "vertical") := by decide
  constructor
  · rw [generatePanesWithLayout, fuel_evenHorizontal, generatePanes_eq]
    simp only [chainNodes, Node.renderAll, List.length_cons, List.length_map]
    rw [renderAll_manual_eq_even rt root env indent "horizontal" (rest.length + 1)]
    intro p k
    simp only [manualContainer, evenContainer, hhv, hne, if_false, Node.render, Node.renderAll]
    rfl
  · rw [generatePanesWithLayout, fuel_evenVertical, generatePanes_eq]
    simp only [chainNodes, Node.renderAll, List.length_cons, List.length_map]
    rw [renderAll_manual_eq_even rt root env indent "vertical" (rest.length + 1)]
    intro p k
    simp only [manualContainer, evenContainer, hne, if_false, if_true, Node.render,
      Node.renderAll]
    rfl


end Zellijinator
